import Mathlib

/-!
# SCD30 UART driver

A shallow embedding of `SCD30_UART_lib.h` / `SCD30_UART_lib.cpp`, the Arduino driver of the
Sensirion SCD30 CO2 sensor module on its Modbus-over-UART interface, and theorems about it.

Conventions of the embedding:

* `uint8_t`, `uint16_t` and `uint32_t` values are natural numbers; every place where the C++
  code stores into such a variable carries the explicit reduction `% 2^8`, `% 2^16` or `% 2^32`.
* The three `float` members `co2`, `temperature` and `humidity` are held as their 32-bit
  IEEE-754 bit patterns. `memcpy` between a `uint32_t` and a `float` copies the pattern.
* `Serial1` is a record of the bytes written so far, the receive buffer, and the chunks of
  bytes that the line delivers during each later `delay(100)`.
* A method of the class is a function on `World`, the object together with `Serial1`.
* `setTemperatureOffset`, `getTemperatureF` and `getTemperatureK` compute with `float`
  arithmetic and are not embedded.
-/

/-! ## Constants of `SCD30_UART_lib.h` -/

def SCD30_UART_ADDRESS : Nat := 0x61

def SCD30_READ_HOLDING_REGISTERS : Nat := 3
def SCD30_WRITE_SINGLE_HOLDING_REGISTER : Nat := 6

def SCD30_START_CONTINUOUS_MEASUREMENT : Nat := 0x0036
def SCD30_STOP_CONTINUOUS_MEASUREMENT : Nat := 0x0037
def SCD30_SET_MEASUREMENT_INTERVAL : Nat := 0x0025
def SCD30_GET_READY_STATUS : Nat := 0x0027
def SCD30_READ_MEASUREMENT : Nat := 0x0028
def SCD30_SET_ALTITUDE_COMPENSATION : Nat := 0x0038
def SCD30_SET_TEMPERATURE_OFFSET : Nat := 0x003B
def SCD30_SET_AUTOMATIC_SELFCALIBRATION : Nat := 0x003A
def SCD30_SET_FORCED_RECALIBRATION : Nat := 0x0039
def SCD30_READ_FIRMWARE_VERSION : Nat := 0x0038

def BAUD_RATE : Nat := 19200

/-! ## The serial port -/

/-- The state of `Serial1` as the driver sees it. -/
structure HardwareSerial where
  /-- Every byte handed to `Serial1.write`, oldest first. -/
  written : List Nat
  /-- The receive buffer: `Serial1.available()` is its length, `Serial1.read()` takes its head. -/
  buffer : List Nat
  /-- The bytes the line delivers during each coming `delay(100)`, one chunk per delay. -/
  incoming : List (List Nat)
deriving DecidableEq, Repr

namespace HardwareSerial

/-- Call `Serial1.begin(baud)`: configures the line. The record keeps no line settings. -/
def begin (s : HardwareSerial) (_baud : Nat) : HardwareSerial := s

/-- Call `Serial1.write(data, n)`: queues the first `n` bytes of `data` for transmission. -/
def write (s : HardwareSerial) (data : List Nat) (n : Nat) : HardwareSerial :=
  { s with written := s.written ++ data.take n }

/-- Call `Serial1.flush()`: waits until the queued bytes are out; nothing is added or removed. -/
def flush (s : HardwareSerial) : HardwareSerial := s

/-- Call `delay(100)` seen from the port: the next chunk of the line arrives in the buffer. -/
def delay (s : HardwareSerial) : HardwareSerial :=
  match s.incoming with
  | [] => s
  | chunk :: rest => { s with buffer := s.buffer ++ chunk, incoming := rest }

/-- The port once a `while (Serial1.available() > 0) Serial1.read()` loop has run out. -/
def drained (s : HardwareSerial) : HardwareSerial :=
  { s with buffer := [] }

end HardwareSerial

/-! ## The object and the world -/

/-- The private members of `class SCD30`. -/
structure SCD30 where
  /-- Bit pattern of `float co2`. -/
  co2 : Nat
  /-- Bit pattern of `float temperature`. -/
  temperature : Nat
  /-- Bit pattern of `float humidity`. -/
  humidity : Nat
  /-- The array `uint8_t* firmwareVersion` points to, `none` while the pointer is unassigned. -/
  firmwareVersion : Option (Nat × Nat)
deriving DecidableEq, Repr

/-- The object and the port it talks to. -/
structure World where
  dev : SCD30
  serial : HardwareSerial
deriving DecidableEq, Repr

namespace SCD30

/-- The object after construction: the member initialisers `= 0` of the header. -/
def new : SCD30 :=
  { co2 := 0, temperature := 0, humidity := 0, firmwareVersion := none }

/-! ## `computeCRC16` -/

/-- Table of CRC values for the high-order byte. -/
def tableCRCMSB : List Nat := [
  0x00, 0xC1, 0x81, 0x40, 0x01, 0xC0, 0x80, 0x41, 0x01, 0xC0, 0x80, 0x41, 0x00, 0xC1, 0x81, 0x40,
  0x01, 0xC0, 0x80, 0x41, 0x00, 0xC1, 0x81, 0x40, 0x00, 0xC1, 0x81, 0x40, 0x01, 0xC0, 0x80, 0x41,
  0x01, 0xC0, 0x80, 0x41, 0x00, 0xC1, 0x81, 0x40, 0x00, 0xC1, 0x81, 0x40, 0x01, 0xC0, 0x80, 0x41,
  0x00, 0xC1, 0x81, 0x40, 0x01, 0xC0, 0x80, 0x41, 0x01, 0xC0, 0x80, 0x41, 0x00, 0xC1, 0x81, 0x40,
  0x01, 0xC0, 0x80, 0x41, 0x00, 0xC1, 0x81, 0x40, 0x00, 0xC1, 0x81, 0x40, 0x01, 0xC0, 0x80, 0x41,
  0x00, 0xC1, 0x81, 0x40, 0x01, 0xC0, 0x80, 0x41, 0x01, 0xC0, 0x80, 0x41, 0x00, 0xC1, 0x81, 0x40,
  0x00, 0xC1, 0x81, 0x40, 0x01, 0xC0, 0x80, 0x41, 0x01, 0xC0, 0x80, 0x41, 0x00, 0xC1, 0x81, 0x40,
  0x01, 0xC0, 0x80, 0x41, 0x00, 0xC1, 0x81, 0x40, 0x00, 0xC1, 0x81, 0x40, 0x01, 0xC0, 0x80, 0x41,
  0x01, 0xC0, 0x80, 0x41, 0x00, 0xC1, 0x81, 0x40, 0x00, 0xC1, 0x81, 0x40, 0x01, 0xC0, 0x80, 0x41,
  0x00, 0xC1, 0x81, 0x40, 0x01, 0xC0, 0x80, 0x41, 0x01, 0xC0, 0x80, 0x41, 0x00, 0xC1, 0x81, 0x40,
  0x00, 0xC1, 0x81, 0x40, 0x01, 0xC0, 0x80, 0x41, 0x01, 0xC0, 0x80, 0x41, 0x00, 0xC1, 0x81, 0x40,
  0x01, 0xC0, 0x80, 0x41, 0x00, 0xC1, 0x81, 0x40, 0x00, 0xC1, 0x81, 0x40, 0x01, 0xC0, 0x80, 0x41,
  0x00, 0xC1, 0x81, 0x40, 0x01, 0xC0, 0x80, 0x41, 0x01, 0xC0, 0x80, 0x41, 0x00, 0xC1, 0x81, 0x40,
  0x01, 0xC0, 0x80, 0x41, 0x00, 0xC1, 0x81, 0x40, 0x00, 0xC1, 0x81, 0x40, 0x01, 0xC0, 0x80, 0x41,
  0x01, 0xC0, 0x80, 0x41, 0x00, 0xC1, 0x81, 0x40, 0x00, 0xC1, 0x81, 0x40, 0x01, 0xC0, 0x80, 0x41,
  0x00, 0xC1, 0x81, 0x40, 0x01, 0xC0, 0x80, 0x41, 0x01, 0xC0, 0x80, 0x41, 0x00, 0xC1, 0x81, 0x40]

/-- Table of CRC values for the low-order byte. -/
def tableCRCLSB : List Nat := [
  0x00, 0xC0, 0xC1, 0x01, 0xC3, 0x03, 0x02, 0xC2, 0xC6, 0x06, 0x07, 0xC7, 0x05, 0xC5, 0xC4, 0x04,
  0xCC, 0x0C, 0x0D, 0xCD, 0x0F, 0xCF, 0xCE, 0x0E, 0x0A, 0xCA, 0xCB, 0x0B, 0xC9, 0x09, 0x08, 0xC8,
  0xD8, 0x18, 0x19, 0xD9, 0x1B, 0xDB, 0xDA, 0x1A, 0x1E, 0xDE, 0xDF, 0x1F, 0xDD, 0x1D, 0x1C, 0xDC,
  0x14, 0xD4, 0xD5, 0x15, 0xD7, 0x17, 0x16, 0xD6, 0xD2, 0x12, 0x13, 0xD3, 0x11, 0xD1, 0xD0, 0x10,
  0xF0, 0x30, 0x31, 0xF1, 0x33, 0xF3, 0xF2, 0x32, 0x36, 0xF6, 0xF7, 0x37, 0xF5, 0x35, 0x34, 0xF4,
  0x3C, 0xFC, 0xFD, 0x3D, 0xFF, 0x3F, 0x3E, 0xFE, 0xFA, 0x3A, 0x3B, 0xFB, 0x39, 0xF9, 0xF8, 0x38,
  0x28, 0xE8, 0xE9, 0x29, 0xEB, 0x2B, 0x2A, 0xEA, 0xEE, 0x2E, 0x2F, 0xEF, 0x2D, 0xED, 0xEC, 0x2C,
  0xE4, 0x24, 0x25, 0xE5, 0x27, 0xE7, 0xE6, 0x26, 0x22, 0xE2, 0xE3, 0x23, 0xE1, 0x21, 0x20, 0xE0,
  0xA0, 0x60, 0x61, 0xA1, 0x63, 0xA3, 0xA2, 0x62, 0x66, 0xA6, 0xA7, 0x67, 0xA5, 0x65, 0x64, 0xA4,
  0x6C, 0xAC, 0xAD, 0x6D, 0xAF, 0x6F, 0x6E, 0xAE, 0xAA, 0x6A, 0x6B, 0xAB, 0x69, 0xA9, 0xA8, 0x68,
  0x78, 0xB8, 0xB9, 0x79, 0xBB, 0x7B, 0x7A, 0xBA, 0xBE, 0x7E, 0x7F, 0xBF, 0x7D, 0xBD, 0xBC, 0x7C,
  0xB4, 0x74, 0x75, 0xB5, 0x77, 0xB7, 0xB6, 0x76, 0x72, 0xB2, 0xB3, 0x73, 0xB1, 0x71, 0x70, 0xB0,
  0x50, 0x90, 0x91, 0x51, 0x93, 0x53, 0x52, 0x92, 0x96, 0x56, 0x57, 0x97, 0x55, 0x95, 0x94, 0x54,
  0x9C, 0x5C, 0x5D, 0x9D, 0x5F, 0x9F, 0x9E, 0x5E, 0x5A, 0x9A, 0x9B, 0x5B, 0x99, 0x59, 0x58, 0x98,
  0x88, 0x48, 0x49, 0x89, 0x4B, 0x8B, 0x8A, 0x4A, 0x4E, 0x8E, 0x8F, 0x4F, 0x8D, 0x4D, 0x4C, 0x8C,
  0x44, 0x84, 0x85, 0x45, 0x87, 0x47, 0x46, 0x86, 0x82, 0x42, 0x43, 0x83, 0x41, 0x81, 0x80, 0x40]

/-- The `while (len--)` loop of `computeCRC16`: `len` iterations from `dataIndex` on, the
running bytes `crcMSB` and `crcLSB` carried along. A read past the end of `data` yields 0. -/
def computeCRC16Loop (data : List Nat) : Nat → Nat → Nat → Nat → Nat × Nat
  | 0, _, crcMSB, crcLSB => (crcMSB, crcLSB)
  | len + 1, dataIndex, crcMSB, crcLSB =>
    let index := (crcMSB ^^^ data.getD dataIndex 0) % 256
    let crcMSB := (crcLSB ^^^ tableCRCMSB.getD index 0) % 256
    let crcLSB := tableCRCLSB.getD index 0 % 256
    computeCRC16Loop data len ((dataIndex + 1) % 256) crcMSB crcLSB

/-- Method `uint16_t SCD30::computeCRC16(uint8_t data[], uint8_t len)`. -/
def computeCRC16 (data : List Nat) (len : Nat) : Nat :=
  let r := computeCRC16Loop data (len % 256) 0 0xFF 0xFF
  (r.1 <<< 8 ||| r.2) % 65536

/-! ## `sendCommand` and `clearBuffer` -/

/-- The array `data` of `sendCommand` as it is handed to `Serial1.write`: the six request
bytes, then `crcLSB = crc >> 8` in `data[6]` and `crcMSB = crc & 0xFF` in `data[7]`. -/
def sendCommandData (functionCode address argument : Nat) : List Nat :=
  let functionCode := functionCode % 256
  let address := address % 65536
  let argument := argument % 65536
  let addressMSB := (address >>> 8) % 256
  let addressLSB := (address &&& 0xFF) % 256
  let argumentMSB := (argument >>> 8) % 256
  let argumentLSB := (argument &&& 0xFF) % 256
  let data := [SCD30_UART_ADDRESS, functionCode, addressMSB, addressLSB,
    argumentMSB, argumentLSB, 0, 0]
  let crc := computeCRC16 data 6
  let crcLSB := (crc >>> 8) % 256
  let crcMSB := (crc &&& 0xFF) % 256
  let data := data.set 6 crcLSB
  let data := data.set 7 crcMSB
  data

/-- Method `void SCD30::sendCommand(uint8_t functionCode, uint16_t address, uint16_t argument)`. -/
def sendCommand (w : World) (functionCode address argument : Nat) : World :=
  let data := sendCommandData functionCode address argument
  { w with serial := (w.serial.write data 8).flush }

/-- Method `void SCD30::clearBuffer()`: the delay, then every buffered byte is read and dropped. -/
def clearBuffer (w : World) : World :=
  { w with serial := w.serial.delay.drained }

/-! ## Commands without a decoded response -/

/-- Method `void SCD30::beginMeasuring(uint16_t ambientPressureOffset)`. -/
def beginMeasuring (w : World) (ambientPressureOffset : Nat) : World :=
  let ambientPressureOffset := ambientPressureOffset % 65536
  let w := sendCommand w SCD30_WRITE_SINGLE_HOLDING_REGISTER
    SCD30_START_CONTINUOUS_MEASUREMENT ambientPressureOffset
  clearBuffer w

/-- Method `void SCD30::beginMeasuring(void)`. -/
def beginMeasuring0 (w : World) : World :=
  beginMeasuring w 0

/-- Method `void SCD30::stopMeasuring()`. -/
def stopMeasuring (w : World) : World :=
  let w := sendCommand w SCD30_WRITE_SINGLE_HOLDING_REGISTER SCD30_STOP_CONTINUOUS_MEASUREMENT 1
  clearBuffer w

/-- Method `void SCD30::enableAutomaticSelfCalibration()`. -/
def enableAutomaticSelfCalibration (w : World) : World :=
  let w := sendCommand w SCD30_WRITE_SINGLE_HOLDING_REGISTER
    SCD30_SET_AUTOMATIC_SELFCALIBRATION 1
  clearBuffer w

/-- Method `void SCD30::disableAutomaticSelfCalibration()`. -/
def disableAutomaticSelfCalibration (w : World) : World :=
  let w := sendCommand w SCD30_WRITE_SINGLE_HOLDING_REGISTER
    SCD30_SET_AUTOMATIC_SELFCALIBRATION 0
  clearBuffer w

/-- Method `void SCD30::setForcedRecalibrationValue(uint16_t concentration)`. -/
def setForcedRecalibrationValue (w : World) (concentration : Nat) : World :=
  let concentration := concentration % 65536
  if concentration < 400 ∨ concentration > 2000 then w
  else
    let w := sendCommand w SCD30_WRITE_SINGLE_HOLDING_REGISTER
      SCD30_SET_FORCED_RECALIBRATION concentration
    clearBuffer w

/-- Method `void SCD30::setMeasurementInterval(uint16_t interval)`. -/
def setMeasurementInterval (w : World) (interval : Nat) : World :=
  let interval := interval % 65536
  let w := sendCommand w SCD30_WRITE_SINGLE_HOLDING_REGISTER
    SCD30_SET_MEASUREMENT_INTERVAL interval
  clearBuffer w

/-- Method `void SCD30::setAmbientPressure(uint16_t ambientPressure)`. -/
def setAmbientPressure (w : World) (ambientPressure : Nat) : World :=
  let ambientPressure := ambientPressure % 65536
  let ambientPressure :=
    if ambientPressure < 700 ∨ ambientPressure > 1200 then 0 else ambientPressure
  let w := sendCommand w SCD30_WRITE_SINGLE_HOLDING_REGISTER
    SCD30_START_CONTINUOUS_MEASUREMENT ambientPressure
  clearBuffer w

/-- Method `void SCD30::setAltitudeCompensation(uint16_t altitude)`. -/
def setAltitudeCompensation (w : World) (altitude : Nat) : World :=
  let altitude := altitude % 65536
  let w := sendCommand w SCD30_WRITE_SINGLE_HOLDING_REGISTER
    SCD30_SET_ALTITUDE_COMPENSATION altitude
  clearBuffer w

/-- Method `void SCD30::begin()`. -/
def begin (w : World) : World :=
  let w := { w with serial := w.serial.begin BAUD_RATE }
  let w := beginMeasuring0 w
  setMeasurementInterval w 2

/-! ## `dataAvailable` -/

/-- The `while (Serial1.available() > 0)` loop of `dataAvailable` over the buffered bytes,
with the `uint8_t byteCounter` and the flag `dataAvailable` carried along. -/
def dataAvailableLoop : List Nat → Nat → Bool → Bool
  | [], _, dataAvailable => dataAvailable
  | b :: rest, byteCounter, dataAvailable =>
    let data := b % 256
    let dataAvailable := if byteCounter = 4 ∧ data = 1 then true else dataAvailable
    dataAvailableLoop rest ((byteCounter + 1) % 256) dataAvailable

/-- Method `boolean SCD30::dataAvailable()`. -/
def dataAvailable (w : World) : Bool × World :=
  let w := sendCommand w SCD30_READ_HOLDING_REGISTERS SCD30_GET_READY_STATUS 1
  let w := { w with serial := w.serial.delay }
  let dataAvailable := dataAvailableLoop w.serial.buffer 0 false
  let w := { w with serial := w.serial.drained }
  (if dataAvailable = true then true else false, w)

/-! ## `readMeasurement` -/

/-- The three `uint32_t` accumulators of `readMeasurement`. -/
structure Accumulators where
  tempCO2 : Nat
  tempHumidity : Nat
  tempTemperature : Nat
deriving DecidableEq, Repr

/-- The `while (Serial1.available() > 0)` loop of `readMeasurement` over the buffered bytes:
the `switch (byteCounter)` shifts each byte into the accumulator of its block. -/
def readMeasurementLoop : List Nat → Nat → Accumulators → Accumulators
  | [], _, acc => acc
  | b :: rest, byteCounter, acc =>
    let incoming := b % 256
    let acc :=
      if byteCounter = 3 ∨ byteCounter = 4 ∨ byteCounter = 5 ∨ byteCounter = 6 then
        { acc with tempCO2 := ((acc.tempCO2 <<< 8) % 2 ^ 32) ||| incoming }
      else if byteCounter = 7 ∨ byteCounter = 8 ∨ byteCounter = 9 ∨ byteCounter = 10 then
        { acc with tempTemperature := ((acc.tempTemperature <<< 8) % 2 ^ 32) ||| incoming }
      else if byteCounter = 11 ∨ byteCounter = 12 ∨ byteCounter = 13 ∨ byteCounter = 14 then
        { acc with tempHumidity := ((acc.tempHumidity <<< 8) % 2 ^ 32) ||| incoming }
      else acc
    readMeasurementLoop rest ((byteCounter + 1) % 256) acc

/-- Method `void SCD30::readMeasurement()`. The three `memcpy` calls copy `sizeof(float) = 4` bytes
from a `uint32_t` into a `float` member: the member takes the accumulator's bit pattern. -/
def readMeasurement (w : World) : World :=
  let acc : Accumulators := { tempCO2 := 0, tempHumidity := 0, tempTemperature := 0 }
  let w := sendCommand w SCD30_READ_HOLDING_REGISTERS SCD30_READ_MEASUREMENT 6
  let w := { w with serial := w.serial.delay }
  let acc := readMeasurementLoop w.serial.buffer 0 acc
  let w := { w with serial := w.serial.drained }
  { w with dev := { w.dev with
      co2 := acc.tempCO2, temperature := acc.tempTemperature, humidity := acc.tempHumidity } }

/-! ## Getters -/

/-- The conversion `float → uint16_t` that `return co2;` performs in `getCO2`, on the bit
pattern of the `float`: the value truncated toward zero when the truncated value lies in
`0..65535`; `none` (the conversion is undefined in C++) for NaN, the infinities and every
value whose truncation is outside that range. Sign is bit 31, the biased exponent bits 30..23,
the fraction bits 22..0; a normal value is `(2^23 + fraction) * 2^(exponent - 150)`, a
subnormal one `fraction * 2^(-149)`, which is below 1. -/
def floatToUint16 (bits : Nat) : Option Nat :=
  let sign := (bits / 2 ^ 31) % 2
  let exponent := (bits / 2 ^ 23) % 256
  let fraction := bits % 2 ^ 23
  if exponent = 255 then none
  else
    let magnitude :=
      if exponent = 0 then 0
      else if exponent < 150 then (2 ^ 23 + fraction) / 2 ^ (150 - exponent)
      else (2 ^ 23 + fraction) * 2 ^ (exponent - 150)
    if magnitude = 0 then some 0
    else if sign = 1 then none
    else if magnitude ≤ 65535 then some magnitude
    else none

/-- Method `float SCD30::getHumidity()`; the result is the bit pattern of the returned
`float`. -/
def getHumidity (w : World) : Nat × World :=
  let r := dataAvailable w
  let w := if r.1 = true then readMeasurement r.2 else r.2
  (w.dev.humidity, w)

/-- Method `float SCD30::getTemperatureC()`; the result is the bit pattern of the returned
`float`. -/
def getTemperatureC (w : World) : Nat × World :=
  let r := dataAvailable w
  let w := if r.1 = true then readMeasurement r.2 else r.2
  (w.dev.temperature, w)

/-- Method `uint16_t SCD30::getCO2()`. -/
def getCO2 (w : World) : Option Nat × World :=
  let r := dataAvailable w
  let w := if r.1 = true then readMeasurement r.2 else r.2
  (floatToUint16 w.dev.co2, w)

/-! ## `getFirmwareVersion` -/

/-- The `while (Serial1.available() > 0)` loop of `getFirmwareVersion`. -/
def getFirmwareVersionLoop : List Nat → Nat → Nat × Nat → Nat × Nat
  | [], _, version => version
  | b :: rest, byteCounter, version =>
    let incoming := b % 256
    let version := if byteCounter = 3 then (incoming, version.2) else version
    let version := if byteCounter = 4 then (version.1, incoming) else version
    getFirmwareVersionLoop rest ((byteCounter + 1) % 256) version

/-- Method `uint8_t* SCD30::getFirmwareVersion()`. The test `sizeof(firmwareVersion) == 0` compares
the size of the pointer member, a constant of the platform given here as `sizeofPointer`. -/
def getFirmwareVersion (sizeofPointer : Nat) (w : World) : Option (Nat × Nat) × World :=
  if sizeofPointer = 0 then
    let version := getFirmwareVersionLoop w.serial.buffer 0 (0, 0)
    let w : World :=
      { dev := { w.dev with firmwareVersion := some version }, serial := w.serial.drained }
    (w.dev.firmwareVersion, w)
  else
    let w := clearBuffer w
    (w.dev.firmwareVersion, w)

end SCD30

/-! ## The reference CRC-16/MODBUS -/

/-- One shift of the reference algorithm: the register moves right by one bit and is XORed
with `0xA001` when the bit shifted out is 1. -/
def crc16ModbusShift (crc : Nat) : Nat :=
  if crc % 2 = 1 then (crc >>> 1) ^^^ 0xA001 else crc >>> 1

/-- The shift repeated `n` times. -/
def crc16ModbusShifts : Nat → Nat → Nat
  | 0, crc => crc
  | n + 1, crc => crc16ModbusShifts n (crc16ModbusShift crc)

/-- One byte of the reference algorithm: XOR it into the low byte, then shift 8 times. -/
def crc16ModbusByte (crc b : Nat) : Nat :=
  crc16ModbusShifts 8 (crc ^^^ b)

/-- The reference table-free CRC-16/MODBUS of a byte sequence, register seeded with `0xFFFF`,
no final XOR. -/
def crc16Modbus (bytes : List Nat) : Nat :=
  bytes.foldl crc16ModbusByte 0xFFFF

/-- The world right after construction of the object, the port idle and `line` still to come. -/
def World.initial (line : List (List Nat)) : World :=
  { dev := SCD30.new, serial := { written := [], buffer := [], incoming := line } }

/-! ## Encodings used to state the claims on measurements -/

/-- The value of a byte sequence read most significant byte first. -/
def bigEndian (bytes : List Nat) : Nat :=
  bytes.foldl (fun acc b => acc * 256 + b) 0

/-- The four bytes of a 32-bit pattern, most significant first. -/
def bigEndian32 (x : Nat) : List Nat :=
  [x / 2 ^ 24 % 256, x / 2 ^ 16 % 256, x / 2 ^ 8 % 256, x % 256]

/-- The position of the leading one of `n`, found by halving at most `fuel` times; it is
`⌊log₂ n⌋` for `0 < n < 2^fuel`. -/
def leadingBit : Nat → Nat → Nat
  | 0, _ => 0
  | fuel + 1, n => if n < 2 then 0 else leadingBit fuel (n / 2) + 1

/-- The bit pattern of the IEEE-754 single-precision number of value `n`, for `n < 2^24`
(every such integer is represented exactly): biased exponent 127 plus the position of the
leading one, and the bits of `n` below its leading one moved to the top of the fraction. -/
def floatBitsOfNat (n : Nat) : Nat :=
  if n = 0 then 0
  else (127 + leadingBit 24 n) * 2 ^ 23 + (n - 2 ^ leadingBit 24 n) * 2 ^ (23 - leadingBit 24 n)

/-! # Theorems -/

open SCD30

/-! ## The table-driven CRC is the reference CRC, bytes exchanged -/

theorem crc16ModbusShift_xor (x y : Nat) :
    crc16ModbusShift (x ^^^ y) = crc16ModbusShift x ^^^ crc16ModbusShift y := by
  unfold crc16ModbusShift
  have hs : (x ^^^ y) >>> 1 = x >>> 1 ^^^ y >>> 1 := by
    apply Nat.eq_of_testBit_eq
    intro i
    simp only [Nat.testBit_xor, Nat.testBit_shiftRight]
  rw [hs]
  by_cases hx : x % 2 = 1 <;> by_cases hy : y % 2 = 1
  · have h : ¬ (x ^^^ y) % 2 = 1 := by
      simp [hx, hy]
      omega
    rw [if_neg h, if_pos hx, if_pos hy]
    apply Nat.eq_of_testBit_eq
    intro i
    simp only [Nat.testBit_xor]
    cases (x >>> 1).testBit i <;> cases (y >>> 1).testBit i <;>
      cases (0xA001 : Nat).testBit i <;> rfl
  · have h : (x ^^^ y) % 2 = 1 := by
      simp [hx, hy]
      omega
    rw [if_pos h, if_pos hx, if_neg hy]
    apply Nat.eq_of_testBit_eq
    intro i
    simp only [Nat.testBit_xor]
    cases (x >>> 1).testBit i <;> cases (y >>> 1).testBit i <;>
      cases (0xA001 : Nat).testBit i <;> rfl
  · have h : (x ^^^ y) % 2 = 1 := by
      simp [hx, hy]
      omega
    rw [if_pos h, if_neg hx, if_pos hy]
    apply Nat.eq_of_testBit_eq
    intro i
    simp only [Nat.testBit_xor]
    cases (x >>> 1).testBit i <;> cases (y >>> 1).testBit i <;>
      cases (0xA001 : Nat).testBit i <;> rfl
  · have h : ¬ (x ^^^ y) % 2 = 1 := by
      simp [hx, hy]
      omega
    rw [if_neg h, if_neg hx, if_neg hy]

theorem crc16ModbusShifts_xor (n x y : Nat) :
    crc16ModbusShifts n (x ^^^ y) = crc16ModbusShifts n x ^^^ crc16ModbusShifts n y := by
  induction n generalizing x y with
  | zero => rfl
  | succ n ih => simp only [crc16ModbusShifts, crc16ModbusShift_xor, ih]

theorem crc16ModbusShifts_mul_two_pow (n h : Nat) :
    crc16ModbusShifts n (h * 2 ^ n) = h := by
  induction n with
  | zero => simp [crc16ModbusShifts]
  | succ n ih =>
    have h1 : crc16ModbusShift (h * 2 ^ (n + 1)) = h * 2 ^ n := by
      unfold crc16ModbusShift
      have e : h * 2 ^ (n + 1) = 2 * (h * 2 ^ n) := by ring
      rw [e, Nat.shiftRight_eq_div_pow]
      have : ¬ (2 * (h * 2 ^ n)) % 2 = 1 := by omega
      rw [if_neg this]
      omega
    simp only [crc16ModbusShifts, h1, ih]

set_option maxRecDepth 100000 in
theorem crc16ModbusShifts_table :
    ∀ i < 256, crc16ModbusShifts 8 i = tableCRCLSB.getD i 0 * 256 + tableCRCMSB.getD i 0 := by
  decide

set_option maxRecDepth 100000 in
theorem table_lt :
    ∀ i < 256, tableCRCMSB.getD i 0 < 256 ∧ tableCRCLSB.getD i 0 < 256 := by
  decide

theorem mul_256_xor (h l : Nat) (hl : l < 256) : (h * 256) ^^^ l = h * 256 + l := by
  apply Nat.eq_of_testBit_eq
  intro j
  have hl8 : l < 2 ^ 8 := hl
  have e : h * 256 = 2 ^ 8 * h := by omega
  rw [e, Nat.testBit_mul_pow_two_add h hl8, Nat.testBit_xor, Nat.testBit_mul_pow_two]
  by_cases hj : j < 8
  · have : ¬ j ≥ 8 := by omega
    simp [hj, this]
  · have hge : j ≥ 8 := by omega
    have hlj : l.testBit j = false :=
      Nat.testBit_lt_two_pow (Nat.lt_of_lt_of_le hl8 (Nat.pow_le_pow_right (by decide) hge))
    simp [hj, hge, hlj]

theorem shiftLeft_8_or (x y : Nat) (hy : y < 256) : (x <<< 8) ||| y = x * 256 + y := by
  have hy8 : y < 2 ^ 8 := hy
  rw [Nat.shiftLeft_eq, Nat.mul_comm, ← Nat.mul_add_lt_is_or hy8]

theorem crc16ModbusByte_eq (c b : Nat) (hc : c < 65536) (hb : b < 256) :
    crc16ModbusByte c b =
      tableCRCLSB.getD ((c % 256) ^^^ b) 0 * 256 +
        ((c / 256) ^^^ tableCRCMSB.getD ((c % 256) ^^^ b) 0) := by
  have hi : (c % 256) ^^^ b < 256 :=
    Nat.xor_lt_two_pow (n := 8) (Nat.mod_lt _ (by decide)) hb
  have hsplit : c ^^^ b = (c / 256 * 256) ^^^ ((c % 256) ^^^ b) := by
    have hc' : c = (c / 256 * 256) ^^^ (c % 256) := by
      rw [mul_256_xor _ _ (Nat.mod_lt _ (by decide))]
      omega
    conv_lhs => rw [hc']
    rw [Nat.xor_assoc]
  have ht := table_lt _ hi
  have h8 : crc16ModbusShifts 8 (c / 256 * 256) = c / 256 :=
    crc16ModbusShifts_mul_two_pow 8 (c / 256)
  have hx : (c / 256) ^^^ tableCRCMSB.getD ((c % 256) ^^^ b) 0 < 256 :=
    Nat.xor_lt_two_pow (n := 8) (by omega) ht.1
  unfold crc16ModbusByte
  rw [hsplit, crc16ModbusShifts_xor, h8, crc16ModbusShifts_table _ hi,
    ← mul_256_xor _ _ ht.1, ← Nat.xor_assoc, Nat.xor_comm (c / 256), Nat.xor_assoc]
  exact mul_256_xor _ _ hx

theorem crc16ModbusByte_lt (c b : Nat) (hc : c < 65536) (hb : b < 256) :
    crc16ModbusByte c b < 65536 := by
  have hi : (c % 256) ^^^ b < 256 :=
    Nat.xor_lt_two_pow (n := 8) (Nat.mod_lt _ (by decide)) hb
  have ht := table_lt _ hi
  have hx : (c / 256) ^^^ tableCRCMSB.getD ((c % 256) ^^^ b) 0 < 256 :=
    Nat.xor_lt_two_pow (n := 8) (by omega) ht.1
  rw [crc16ModbusByte_eq c b hc hb]
  omega

theorem crc16Modbus_foldl_lt (bytes : List Nat) (hbytes : ∀ b ∈ bytes, b < 256) :
    ∀ c, c < 65536 → bytes.foldl crc16ModbusByte c < 65536 := by
  induction bytes with
  | nil => intro c hc; simpa using hc
  | cons b rest ih =>
    intro c hc
    simp only [List.foldl_cons]
    exact ih (fun x hx => hbytes x (List.mem_cons_of_mem _ hx)) _
      (crc16ModbusByte_lt c b hc (hbytes b (List.mem_cons_self _ _)))

theorem crc16Modbus_lt (bytes : List Nat) (hbytes : ∀ b ∈ bytes, b < 256) :
    crc16Modbus bytes < 65536 :=
  crc16Modbus_foldl_lt bytes hbytes 0xFFFF (by decide)

theorem computeCRC16Loop_eq (data : List Nat) (hdata : ∀ b ∈ data, b < 256) :
    ∀ (len dataIndex c : Nat), c < 65536 → dataIndex + len ≤ data.length →
      dataIndex + len ≤ 255 →
      computeCRC16Loop data len dataIndex (c % 256) (c / 256) =
        (((data.drop dataIndex).take len).foldl crc16ModbusByte c % 256,
          ((data.drop dataIndex).take len).foldl crc16ModbusByte c / 256) := by
  intro len
  induction len with
  | zero => intro dataIndex c _ _ _; simp [computeCRC16Loop]
  | succ len ih =>
    intro dataIndex c hc hlen h255
    have hidx : dataIndex < data.length := by omega
    have hb : data[dataIndex] < 256 := hdata _ (List.getElem_mem _)
    have hi : (c % 256) ^^^ data[dataIndex] < 256 :=
      Nat.xor_lt_two_pow (n := 8) (Nat.mod_lt _ (by decide)) hb
    have ht := table_lt _ hi
    have hx : (c / 256) ^^^ tableCRCMSB.getD ((c % 256) ^^^ data[dataIndex]) 0 < 256 :=
      Nat.xor_lt_two_pow (n := 8) (by omega) ht.1
    have hstep := crc16ModbusByte_eq c data[dataIndex] hc hb
    have hdrop : data.drop dataIndex = data[dataIndex] :: data.drop (dataIndex + 1) :=
      List.drop_eq_getElem_cons hidx
    have hget : data.getD dataIndex 0 = data[dataIndex] := by
      simp [List.getD_eq_getElem?_getD, List.getElem?_eq_getElem hidx]
    have hnext := ih (dataIndex + 1) (crc16ModbusByte c data[dataIndex])
      (crc16ModbusByte_lt c _ hc hb) (by omega) (by omega)
    have e1 : crc16ModbusByte c data[dataIndex] % 256 =
        (c / 256) ^^^ tableCRCMSB.getD ((c % 256) ^^^ data[dataIndex]) 0 := by
      rw [hstep]; omega
    have e2 : crc16ModbusByte c data[dataIndex] / 256 =
        tableCRCLSB.getD ((c % 256) ^^^ data[dataIndex]) 0 := by
      rw [hstep]; omega
    rw [e1, e2] at hnext
    rw [hdrop, List.take_succ_cons, List.foldl_cons, ← hnext, computeCRC16Loop]
    simp only [hget]
    rw [Nat.mod_eq_of_lt hi, Nat.mod_eq_of_lt hx, Nat.mod_eq_of_lt ht.2,
      Nat.mod_eq_of_lt (show dataIndex + 1 < 256 by omega)]

/-- On at most 255 bytes, `computeCRC16` is the reference CRC with its two bytes exchanged. -/
theorem computeCRC16_eq_swap (data : List Nat) (len : Nat) (hdata : ∀ b ∈ data, b < 256)
    (hlen : len ≤ data.length) (h255 : len ≤ 255) :
    computeCRC16 data len =
      crc16Modbus (data.take len) % 256 * 256 + crc16Modbus (data.take len) / 256 := by
  have hloop := computeCRC16Loop_eq data hdata len 0 0xFFFF (by decide) (by omega) (by omega)
  have hlt : crc16Modbus (data.take len) < 65536 :=
    crc16Modbus_lt _ (fun b hb => hdata b (List.mem_of_mem_take hb))
  have h1 : (0xFFFF : Nat) % 256 = 0xFF := by decide
  have h2 : (0xFFFF : Nat) / 256 = 0xFF := by decide
  have hfold : List.foldl crc16ModbusByte 0xFFFF (data.take len) = crc16Modbus (data.take len) :=
    rfl
  rw [h1, h2, List.drop_zero, hfold] at hloop
  unfold computeCRC16
  rw [Nat.mod_eq_of_lt (show len < 256 by omega), hloop]
  dsimp only
  rw [shiftLeft_8_or _ _ (show crc16Modbus (data.take len) / 256 < 256 by omega)]
  omega

/-! ## The request frame -/

theorem and_255 (x : Nat) : x &&& 0xFF = x % 256 :=
  Nat.and_pow_two_sub_one_eq_mod x 8

theorem shiftRight_8 (x : Nat) : x >>> 8 = x / 256 :=
  Nat.shiftRight_eq_div_pow x 8

/-- The bytes of `sendCommandData` in terms of the reference CRC of the first six. -/
theorem sendCommandData_eq (fc addr arg : Nat)
    (hfc : fc < 256) (haddr : addr < 65536) (harg : arg < 65536) :
    sendCommandData fc addr arg =
      [0x61, fc, addr >>> 8, addr &&& 0xFF, arg >>> 8, arg &&& 0xFF,
        crc16Modbus [0x61, fc, addr >>> 8, addr &&& 0xFF, arg >>> 8, arg &&& 0xFF] % 256,
        crc16Modbus [0x61, fc, addr >>> 8, addr &&& 0xFF, arg >>> 8, arg &&& 0xFF] / 256] := by
  have hbytes : ∀ b ∈ [0x61, fc, addr / 256, addr % 256, arg / 256, arg % 256, 0, 0],
      b < 256 := by
    intro b hb
    simp only [List.mem_cons, List.mem_singleton, List.not_mem_nil, or_false] at hb
    omega
  have hcrc := computeCRC16_eq_swap
    [0x61, fc, addr / 256, addr % 256, arg / 256, arg % 256, 0, 0] 6 hbytes
    (by simp) (by decide)
  have hlt : crc16Modbus [0x61, fc, addr / 256, addr % 256, arg / 256, arg % 256] < 65536 := by
    apply crc16Modbus_lt
    intro b hb
    simp only [List.mem_cons, List.mem_singleton, List.not_mem_nil, or_false] at hb
    omega
  simp only [List.take_succ_cons, List.take_zero] at hcrc
  unfold sendCommandData
  simp only [SCD30_UART_ADDRESS, and_255, shiftRight_8, Nat.mod_eq_of_lt hfc,
    Nat.mod_eq_of_lt haddr, Nat.mod_eq_of_lt harg, Nat.mod_mod,
    Nat.mod_eq_of_lt (show addr / 256 < 256 by omega),
    Nat.mod_eq_of_lt (show arg / 256 < 256 by omega), hcrc, List.set_cons_succ,
    List.set_cons_zero]
  have hswap : ∀ m : Nat, m < 65536 →
      (m % 256 * 256 + m / 256) / 256 % 256 = m % 256 ∧
        (m % 256 * 256 + m / 256) % 256 = m / 256 := by
    intro m hm
    have hhi : m / 256 < 256 := by omega
    constructor
    · rw [Nat.add_comm, Nat.add_mul_div_right _ _ (by decide : 0 < 256),
        Nat.div_eq_of_lt hhi, Nat.zero_add, Nat.mod_mod]
    · rw [Nat.add_comm, Nat.add_mul_mod_self_right, Nat.mod_eq_of_lt hhi]
  have e := hswap _ hlt
  rw [e.1, e.2]

theorem sendCommandData_length (fc addr arg : Nat) :
    (sendCommandData fc addr arg).length = 8 := by
  simp [sendCommandData]

/-- What `sendCommand` does to the world: eight bytes more on the wire, nothing else. -/
theorem sendCommand_eq (w : World) (fc addr arg : Nat) :
    sendCommand w fc addr arg =
      { w with serial := { w.serial with
          written := w.serial.written ++ sendCommandData fc addr arg } } := by
  have h := sendCommandData_length fc addr arg
  simp only [sendCommand, HardwareSerial.write, HardwareSerial.flush]
  rw [List.take_of_length_le (by omega)]

/-- C1: for every 8-bit function code, 16-bit register address and 16-bit argument,
`sendCommand` appends exactly the 8 bytes `[0x61, fc, addr >> 8, addr & 0xFF, arg >> 8,
arg & 0xFF, lo, hi]` to what has been written to the port and changes nothing else, where `lo`
and `hi` are the low and the high byte of the bit-by-bit CRC-16/MODBUS of the first six. -/
theorem sendCommand_writes_frame (w : World) (fc addr arg : Nat)
    (hfc : fc < 256) (haddr : addr < 65536) (harg : arg < 65536) :
    sendCommand w fc addr arg =
      { w with serial := { w.serial with written := w.serial.written ++
          [0x61, fc, addr >>> 8, addr &&& 0xFF, arg >>> 8, arg &&& 0xFF,
            crc16Modbus [0x61, fc, addr >>> 8, addr &&& 0xFF, arg >>> 8, arg &&& 0xFF] % 256,
            crc16Modbus [0x61, fc, addr >>> 8, addr &&& 0xFF, arg >>> 8, arg &&& 0xFF] / 256] } }
      ∧ crc16Modbus [0x61, fc, addr >>> 8, addr &&& 0xFF, arg >>> 8, arg &&& 0xFF] < 65536 := by
  refine ⟨?_, ?_⟩
  · rw [sendCommand_eq, sendCommandData_eq fc addr arg hfc haddr harg]
  · apply crc16Modbus_lt
    intro b hb
    simp only [and_255, shiftRight_8, List.mem_cons, List.mem_singleton, List.not_mem_nil,
      or_false] at hb
    omega

theorem sendCommand_writes_frame_witness :
    (6 < 256 ∧ 0x0036 < 65536 ∧ 1013 < 65536) ∧
      (sendCommand (World.initial []) 6 0x0036 1013 =
        { World.initial [] with serial := { (World.initial []).serial with
            written := (World.initial []).serial.written ++
              [0x61, 6, 0x0036 >>> 8, 0x0036 &&& 0xFF, 1013 >>> 8, 1013 &&& 0xFF,
                crc16Modbus [0x61, 6, 0x0036 >>> 8, 0x0036 &&& 0xFF, 1013 >>> 8,
                  1013 &&& 0xFF] % 256,
                crc16Modbus [0x61, 6, 0x0036 >>> 8, 0x0036 &&& 0xFF, 1013 >>> 8,
                  1013 &&& 0xFF] / 256] } }
        ∧ crc16Modbus [0x61, 6, 0x0036 >>> 8, 0x0036 &&& 0xFF, 1013 >>> 8,
            1013 &&& 0xFF] < 65536) :=
  ⟨by decide, sendCommand_writes_frame (World.initial []) 6 0x0036 1013
    (by decide) (by decide) (by decide)⟩

/-! ## `computeCRC16` against the reference -/

set_option maxRecDepth 100000 in
/-- C2, as stated, fails: on the ready-status request `computeCRC16` returns `0x3DA1` and the
reference CRC-16/MODBUS is `0xA13D`. -/
theorem computeCRC16_ne_crc16Modbus :
    computeCRC16 [0x61, 0x03, 0x00, 0x27, 0x00, 0x01] 6 = 0x3DA1 ∧
      crc16Modbus [0x61, 0x03, 0x00, 0x27, 0x00, 0x01] = 0xA13D ∧
      computeCRC16 [0x61, 0x03, 0x00, 0x27, 0x00, 0x01] 6 ≠
        crc16Modbus [0x61, 0x03, 0x00, 0x27, 0x00, 0x01] := by
  decide

/-- C2, amended: for every byte sequence of length at most 255, the value `computeCRC16`
returns is the 16-bit reference CRC-16/MODBUS of the same bytes with its two bytes exchanged:
the high byte of the result is the low byte of the reference value and the low byte of the
result is its high byte. -/
theorem computeCRC16_eq_crc16Modbus_swapped (bytes : List Nat)
    (hbytes : ∀ b ∈ bytes, b < 256) (hlen : bytes.length ≤ 255) :
    computeCRC16 bytes bytes.length = crc16Modbus bytes % 256 * 256 + crc16Modbus bytes / 256
      ∧ crc16Modbus bytes < 65536 := by
  have h := computeCRC16_eq_swap bytes bytes.length hbytes (Nat.le_refl _) hlen
  rw [List.take_length] at h
  exact ⟨h, crc16Modbus_lt bytes hbytes⟩

set_option maxRecDepth 100000 in
theorem computeCRC16_eq_crc16Modbus_swapped_witness :
    ((∀ b ∈ [0x31, 0x32, 0x33, 0x34, 0x35, 0x36, 0x37, 0x38, 0x39], b < 256) ∧
      [0x31, 0x32, 0x33, 0x34, 0x35, 0x36, 0x37, 0x38, 0x39].length ≤ 255) ∧
    (computeCRC16 [0x31, 0x32, 0x33, 0x34, 0x35, 0x36, 0x37, 0x38, 0x39]
        [0x31, 0x32, 0x33, 0x34, 0x35, 0x36, 0x37, 0x38, 0x39].length =
      crc16Modbus [0x31, 0x32, 0x33, 0x34, 0x35, 0x36, 0x37, 0x38, 0x39] % 256 * 256 +
        crc16Modbus [0x31, 0x32, 0x33, 0x34, 0x35, 0x36, 0x37, 0x38, 0x39] / 256
      ∧ crc16Modbus [0x31, 0x32, 0x33, 0x34, 0x35, 0x36, 0x37, 0x38, 0x39] < 65536) :=
  ⟨⟨by decide, by decide⟩,
    computeCRC16_eq_crc16Modbus_swapped [0x31, 0x32, 0x33, 0x34, 0x35, 0x36, 0x37, 0x38, 0x39]
      (by decide) (by decide)⟩

/-- C3, as stated, fails: `computeCRC16` does not return `0x4FFE` on the bytes of "ABCDEF". -/
theorem computeCRC16_ABCDEF_ne :
    computeCRC16 [0x41, 0x42, 0x43, 0x44, 0x45, 0x46] 6 ≠ 0x4FFE := by
  decide

set_option maxRecDepth 100000 in
/-- C3, amended: on the six ASCII bytes of "ABCDEF" with `len = 6`, `computeCRC16` returns
`0x91F6`, the reference CRC-16/MODBUS of these bytes, `0xF691`, with its bytes exchanged. -/
theorem computeCRC16_ABCDEF :
    computeCRC16 [0x41, 0x42, 0x43, 0x44, 0x45, 0x46] 6 = 0x91F6 ∧
      crc16Modbus [0x41, 0x42, 0x43, 0x44, 0x45, 0x46] = 0xF691 := by
  decide

/-! ## `dataAvailable` -/

set_option maxRecDepth 100000 in
theorem sendCommandData_ready_status :
    sendCommandData SCD30_READ_HOLDING_REGISTERS SCD30_GET_READY_STATUS 1 =
      [0x61, 0x03, 0x00, 0x27, 0x00, 0x01, 0x3D, 0xA1] := by
  decide

/-- The world after `dataAvailable`: the request is on the wire and the buffer is empty. -/
theorem dataAvailable_world (w : World) :
    (dataAvailable w).2 =
      { w with serial :=
          { written := w.serial.written ++
              sendCommandData SCD30_READ_HOLDING_REGISTERS SCD30_GET_READY_STATUS 1,
            buffer := [],
            incoming := w.serial.incoming.tail } } := by
  simp only [dataAvailable, sendCommand_eq, HardwareSerial.delay, HardwareSerial.drained]
  cases h : w.serial.incoming <;> simp

/-- The flag `dataAvailable` returns is the one its loop computes over the bytes that are in
the buffer once the delay is over. -/
theorem dataAvailable_result (w : World) :
    (dataAvailable w).1 = dataAvailableLoop w.serial.delay.buffer 0 false := by
  simp only [dataAvailable, sendCommand_eq, HardwareSerial.delay]
  cases h : w.serial.incoming <;> simp

/-- C4: the request `dataAvailable` writes to the port is exactly the 8 bytes
`0x61 0x03 0x00 0x27 0x00 0x01 0x3D 0xA1`; the frame built from the literal vector
`[0x61, 0x03, 0x00, 0x27, 0x00, 0x01]` ends in `0x3D` then `0xA1`. -/
theorem dataAvailable_writes_ready_status_request (w : World) :
    (dataAvailable w).2.serial.written =
      w.serial.written ++ [0x61, 0x03, 0x00, 0x27, 0x00, 0x01, 0x3D, 0xA1] ∧
    sendCommandData 3 0x0027 1 = [0x61, 0x03, 0x00, 0x27, 0x00, 0x01] ++ [0x3D, 0xA1] := by
  refine ⟨?_, by decide⟩
  rw [dataAvailable_world, sendCommandData_ready_status]

/-- The flag the loop of `dataAvailable` ends with: it is set when it was set before, or when
some byte equal to 1 is read while the 8-bit `byteCounter` stands at 4. -/
theorem dataAvailableLoop_eq_true_iff (resp : List Nat) :
    ∀ (byteCounter : Nat) (flag : Bool), byteCounter < 256 →
      (dataAvailableLoop resp byteCounter flag = true ↔
        flag = true ∨
          ∃ i, i < resp.length ∧ (byteCounter + i) % 256 = 4 ∧ resp.getD i 0 % 256 = 1) := by
  induction resp with
  | nil => intro k flag _; simp [dataAvailableLoop]
  | cons b rest ih =>
    intro k flag hk
    rw [dataAvailableLoop, ih _ _ (Nat.mod_lt _ (by decide))]
    constructor
    · rintro (h | ⟨i, hi, hc, hb⟩)
      · by_cases hcond : k = 4 ∧ b % 256 = 1
        · refine Or.inr ⟨0, by simp, ?_, ?_⟩
          · simp [hcond.1]
          · simpa using hcond.2
        · rw [if_neg hcond] at h
          exact Or.inl h
      · refine Or.inr ⟨i + 1, by simpa using hi, ?_, ?_⟩
        · omega
        · simpa using hb
    · rintro (h | ⟨i, hi, hc, hb⟩)
      · left
        by_cases hcond : k = 4 ∧ b % 256 = 1
        · rw [if_pos hcond]
        · rw [if_neg hcond]; exact h
      · cases i with
        | zero =>
          left
          have hk4 : k = 4 := by omega
          have hb1 : b % 256 = 1 := by simpa using hb
          rw [if_pos ⟨hk4, hb1⟩]
        | succ j =>
          right
          refine ⟨j, by simpa using hi, by omega, by simpa using hb⟩

/-- As long as no more than 260 bytes are drained the 8-bit counter passes 4 once, and the
flag tells whether the byte at index 4 is there and equal to 1. -/
theorem dataAvailableLoop_le_260 (resp : List Nat) (hbytes : ∀ b ∈ resp, b < 256)
    (hlen : resp.length ≤ 260) :
    dataAvailableLoop resp 0 false = true ↔ 5 ≤ resp.length ∧ resp.getD 4 0 = 1 := by
  rw [dataAvailableLoop_eq_true_iff resp 0 false (by decide)]
  constructor
  · rintro (h | ⟨i, hi, hc, hb⟩)
    · exact absurd h (by decide)
    · have hi4 : i = 4 := by omega
      subst hi4
      refine ⟨by omega, ?_⟩
      have hlt : resp.getD 4 0 < 256 := by
        rw [List.getD_eq_getElem _ _ hi]
        exact hbytes _ (List.getElem_mem _)
      omega
  · rintro ⟨h5, h1⟩
    exact Or.inr ⟨4, by omega, by decide, by rw [h1]⟩

set_option maxRecDepth 100000 in
/-- C5, the failing input: a drained sequence of 261 bytes whose byte at index 4 is 0 and
whose byte at index 260 is 1. The 8-bit `byteCounter` has wrapped to 4 again when that last
byte is read, and `dataAvailable` returns true although the byte at index 4 is not 1. -/
theorem dataAvailable_byteCounter_wraps :
    (List.replicate 260 0 ++ [1]).length = 261 ∧
      (List.replicate 260 0 ++ [1]).getD 4 0 = 0 ∧
      (dataAvailable (World.initial [List.replicate 260 0 ++ [1]])).1 = true := by
  refine ⟨by simp, by decide, ?_⟩
  rw [dataAvailable_result]
  decide

/-! ## `readMeasurement` -/

/-- The world after `readMeasurement` in terms of the accumulators its loop ends with. -/
theorem readMeasurement_eq (w : World) :
    readMeasurement w =
      { dev := { w.dev with
          co2 := (readMeasurementLoop w.serial.delay.buffer 0 ⟨0, 0, 0⟩).tempCO2,
          temperature := (readMeasurementLoop w.serial.delay.buffer 0 ⟨0, 0, 0⟩).tempTemperature,
          humidity := (readMeasurementLoop w.serial.delay.buffer 0 ⟨0, 0, 0⟩).tempHumidity },
        serial :=
          { written := w.serial.written ++
              sendCommandData SCD30_READ_HOLDING_REGISTERS SCD30_READ_MEASUREMENT 6,
            buffer := [],
            incoming := w.serial.incoming.tail } } := by
  simp only [readMeasurement, sendCommand_eq, HardwareSerial.delay, HardwareSerial.drained]
  cases h : w.serial.incoming <;> simp

/-- One `tempX <<= 8; tempX |= incoming;` on an accumulator that still has room. -/
theorem shift_in (x y : Nat) (hx : x < 2 ^ 24) (hy : y < 256) :
    ((x <<< 8) % 2 ^ 32) ||| (y % 256) = x * 256 + y := by
  have h1 : x <<< 8 = x * 256 := by rw [Nat.shiftLeft_eq]
  have h2 : x * 256 < 2 ^ 32 := by omega
  rw [Nat.mod_eq_of_lt hy, Nat.mod_eq_of_lt (by rw [h1]; exact h2), shiftLeft_8_or _ _ hy]

/-- Past the three blocks the loop of `readMeasurement` changes nothing until the 8-bit
`byteCounter` has wrapped round to 3: `position` counts the bytes read so far. -/
theorem readMeasurementLoop_skip (tail : List Nat) :
    ∀ (position : Nat) (acc : Accumulators), 15 ≤ position →
      position + tail.length ≤ 259 →
      readMeasurementLoop tail (position % 256) acc = acc := by
  induction tail with
  | nil => intro p acc _ _; rfl
  | cons b rest ih =>
    intro p acc h15 hlen
    simp only [List.length_cons] at hlen
    have hnext := ih (p + 1) acc (by omega) (by omega)
    have hmod : (p % 256 + 1) % 256 = (p + 1) % 256 := by omega
    have h1 : ¬ (p % 256 = 3 ∨ p % 256 = 4 ∨ p % 256 = 5 ∨ p % 256 = 6) := by omega
    have h2 : ¬ (p % 256 = 7 ∨ p % 256 = 8 ∨ p % 256 = 9 ∨ p % 256 = 10) := by omega
    have h3 : ¬ (p % 256 = 11 ∨ p % 256 = 12 ∨ p % 256 = 13 ∨ p % 256 = 14) := by omega
    rw [readMeasurementLoop]
    simp only [h1, h2, h3, if_false, hmod]
    exact hnext

/-- The accumulators at the end of the loop of `readMeasurement`, for a response of at most
259 bytes: each holds the bytes of its block that did arrive, most significant first. -/
theorem readMeasurementLoop_eq (resp : List Nat) (hbytes : ∀ b ∈ resp, b < 256)
    (hlen : resp.length ≤ 259) :
    readMeasurementLoop resp 0 ⟨0, 0, 0⟩ =
      { tempCO2 := bigEndian ((resp.drop 3).take 4),
        tempHumidity := bigEndian ((resp.drop 11).take 4),
        tempTemperature := bigEndian ((resp.drop 7).take 4) } := by
  rcases resp with _ | ⟨b0, _ | ⟨b1, _ | ⟨b2, _ | ⟨b3, _ | ⟨b4, _ | ⟨b5, _ | ⟨b6, _ | ⟨b7,
    _ | ⟨b8, _ | ⟨b9, _ | ⟨b10, _ | ⟨b11, _ | ⟨b12, _ | ⟨b13, _ | ⟨b14, tail⟩⟩⟩⟩⟩⟩⟩⟩⟩⟩⟩⟩⟩⟩⟩
  case cons.cons.cons.cons.cons.cons.cons.cons.cons.cons.cons.cons.cons.cons.cons =>
    simp only [List.mem_cons, forall_eq_or_imp] at hbytes
    simp only [List.length_cons] at hlen
    have hskip := readMeasurementLoop_skip tail 15
    simp only [Nat.reduceMod] at hskip
    simp only [readMeasurementLoop, Nat.reduceAdd, Nat.reduceMod, Nat.reduceEqDiff, false_or,
      or_false, if_true, if_false, or_true, true_or, or_self, ite_true, ite_false]
    rw [hskip _ (by decide) (by omega)]
    simp only [List.drop_succ_cons, List.drop_zero, List.take_succ_cons, List.take_zero,
      bigEndian, List.foldl_cons, List.foldl_nil]
    simp (disch := omega) only [shift_in]
  all_goals
    simp only [List.mem_cons, forall_eq_or_imp, List.not_mem_nil, false_implies,
      implies_true, and_true] at hbytes
    simp only [readMeasurementLoop, Nat.reduceAdd, Nat.reduceMod, Nat.reduceEqDiff, false_or,
      or_false, if_true, if_false, or_true, true_or, or_self, ite_true, ite_false,
      List.drop_succ_cons, List.drop_zero, List.take_succ_cons, List.take_zero, List.drop_nil,
      List.take_nil, bigEndian, List.foldl_cons, List.foldl_nil]
    try simp (disch := omega) only [shift_in]

/-- Four bytes read most significant first, written with shifts as in the C++ source. -/
theorem bigEndian_four (a b c d : Nat) (hb : b < 256) (hc : c < 256) (hd : d < 256) :
    bigEndian [a, b, c, d] = a <<< 24 ||| b <<< 16 ||| c <<< 8 ||| d := by
  have h1 : c <<< 8 ||| d = c * 256 + d := shiftLeft_8_or c d hd
  have h2 : b <<< 16 ||| (c * 256 + d) = 2 ^ 16 * b + (c * 256 + d) := by
    rw [Nat.shiftLeft_eq, Nat.mul_comm,
      ← Nat.mul_add_lt_is_or (show c * 256 + d < 2 ^ 16 by omega)]
  have h3 : a <<< 24 ||| (2 ^ 16 * b + (c * 256 + d)) =
      2 ^ 24 * a + (2 ^ 16 * b + (c * 256 + d)) := by
    rw [Nat.shiftLeft_eq, Nat.mul_comm,
      ← Nat.mul_add_lt_is_or (show 2 ^ 16 * b + (c * 256 + d) < 2 ^ 24 by omega)]
  rw [Nat.or_assoc, Nat.or_assoc, h1, h2, h3]
  simp only [bigEndian, List.foldl_cons, List.foldl_nil]
  omega

/-- The members after `readMeasurement`, for a response of at most 259 bytes. -/
theorem readMeasurement_dev (w : World) (hbytes : ∀ b ∈ w.serial.delay.buffer, b < 256)
    (hlen : w.serial.delay.buffer.length ≤ 259) :
    (readMeasurement w).dev =
      { w.dev with
        co2 := bigEndian ((w.serial.delay.buffer.drop 3).take 4),
        temperature := bigEndian ((w.serial.delay.buffer.drop 7).take 4),
        humidity := bigEndian ((w.serial.delay.buffer.drop 11).take 4) } := by
  rw [readMeasurement_eq, readMeasurementLoop_eq _ hbytes hlen]

/-- C6: for every 17-byte response `b0 .. b16` in the buffer when `readMeasurement` drains it,
the bit pattern stored for CO2 is `b3<<24 | b4<<16 | b5<<8 | b6`, the one stored for
temperature is `b7<<24 | b8<<16 | b9<<8 | b10` and the one stored for humidity is
`b11<<24 | b12<<16 | b13<<8 | b14`. -/
theorem readMeasurement_stores_big_endian_blocks (w : World)
    (b0 b1 b2 b3 b4 b5 b6 b7 b8 b9 b10 b11 b12 b13 b14 b15 b16 : Nat)
    (hbytes : ∀ b ∈ [b0, b1, b2, b3, b4, b5, b6, b7, b8, b9, b10, b11, b12, b13, b14, b15, b16],
      b < 256)
    (hresp : w.serial.delay.buffer =
      [b0, b1, b2, b3, b4, b5, b6, b7, b8, b9, b10, b11, b12, b13, b14, b15, b16]) :
    (readMeasurement w).dev.co2 = b3 <<< 24 ||| b4 <<< 16 ||| b5 <<< 8 ||| b6 ∧
      (readMeasurement w).dev.temperature = b7 <<< 24 ||| b8 <<< 16 ||| b9 <<< 8 ||| b10 ∧
      (readMeasurement w).dev.humidity = b11 <<< 24 ||| b12 <<< 16 ||| b13 <<< 8 ||| b14 := by
  have hdev := readMeasurement_dev w (by rw [hresp]; exact hbytes) (by rw [hresp]; simp)
  rw [hresp] at hdev
  simp only [List.drop_succ_cons, List.drop_zero, List.take_succ_cons, List.take_zero] at hdev
  simp only [List.mem_cons, forall_eq_or_imp, List.not_mem_nil, false_implies, implies_true,
    and_true] at hbytes
  rw [hdev]
  refine ⟨bigEndian_four _ _ _ _ ?_ ?_ ?_, bigEndian_four _ _ _ _ ?_ ?_ ?_,
    bigEndian_four _ _ _ _ ?_ ?_ ?_⟩ <;> omega

set_option maxRecDepth 100000 in
theorem readMeasurement_stores_big_endian_blocks_witness :
    ((∀ b ∈ [0x61, 0x03, 0x0C, 0x43, 0xDB, 0x8C, 0x2E, 0x41, 0xD9, 0xE7, 0xFF, 0x42, 0x43,
        0x3A, 0x1B, 0x50, 0x07], b < 256) ∧
      (World.initial [[0x61, 0x03, 0x0C, 0x43, 0xDB, 0x8C, 0x2E, 0x41, 0xD9, 0xE7, 0xFF, 0x42,
        0x43, 0x3A, 0x1B, 0x50, 0x07]]).serial.delay.buffer =
        [0x61, 0x03, 0x0C, 0x43, 0xDB, 0x8C, 0x2E, 0x41, 0xD9, 0xE7, 0xFF, 0x42, 0x43, 0x3A,
          0x1B, 0x50, 0x07]) ∧
    ((readMeasurement (World.initial [[0x61, 0x03, 0x0C, 0x43, 0xDB, 0x8C, 0x2E, 0x41, 0xD9,
        0xE7, 0xFF, 0x42, 0x43, 0x3A, 0x1B, 0x50, 0x07]])).dev.co2 =
        0x43 <<< 24 ||| 0xDB <<< 16 ||| 0x8C <<< 8 ||| 0x2E ∧
      (readMeasurement (World.initial [[0x61, 0x03, 0x0C, 0x43, 0xDB, 0x8C, 0x2E, 0x41, 0xD9,
        0xE7, 0xFF, 0x42, 0x43, 0x3A, 0x1B, 0x50, 0x07]])).dev.temperature =
        0x41 <<< 24 ||| 0xD9 <<< 16 ||| 0xE7 <<< 8 ||| 0xFF ∧
      (readMeasurement (World.initial [[0x61, 0x03, 0x0C, 0x43, 0xDB, 0x8C, 0x2E, 0x41, 0xD9,
        0xE7, 0xFF, 0x42, 0x43, 0x3A, 0x1B, 0x50, 0x07]])).dev.humidity =
        0x42 <<< 24 ||| 0x43 <<< 16 ||| 0x3A <<< 8 ||| 0x1B) :=
  ⟨⟨by decide, by decide⟩,
    readMeasurement_stores_big_endian_blocks _ 0x61 0x03 0x0C 0x43 0xDB 0x8C 0x2E 0x41 0xD9
      0xE7 0xFF 0x42 0x43 0x3A 0x1B 0x50 0x07 (by decide) (by decide)⟩

set_option maxRecDepth 100000 in
/-- C7, as stated, fails: a session that has cached the reading of a full 17-byte response and
then calls `readMeasurement` on a silent sensor (empty response) ends with all three cached
fields overwritten by 0. -/
theorem readMeasurement_empty_response_overwrites :
    (readMeasurement (World.initial [[0x61, 0x03, 0x0C, 0x43, 0xDB, 0x8C, 0x2E, 0x41, 0xD9,
        0xE7, 0xFF, 0x42, 0x43, 0x3A, 0x1B, 0x50, 0x07], []])).dev =
      { co2 := 0x43DB8C2E, temperature := 0x41D9E7FF, humidity := 0x42433A1B,
        firmwareVersion := none } ∧
    (readMeasurement (World.initial [[0x61, 0x03, 0x0C, 0x43, 0xDB, 0x8C, 0x2E, 0x41, 0xD9,
        0xE7, 0xFF, 0x42, 0x43, 0x3A, 0x1B, 0x50, 0x07], []])).serial.delay.buffer = [] ∧
    (readMeasurement (readMeasurement (World.initial [[0x61, 0x03, 0x0C, 0x43, 0xDB, 0x8C,
        0x2E, 0x41, 0xD9, 0xE7, 0xFF, 0x42, 0x43, 0x3A, 0x1B, 0x50, 0x07], []]))).dev =
      { co2 := 0, temperature := 0, humidity := 0, firmwareVersion := none } ∧
    (readMeasurement (readMeasurement (World.initial [[0x61, 0x03, 0x0C, 0x43, 0xDB, 0x8C,
        0x2E, 0x41, 0xD9, 0xE7, 0xFF, 0x42, 0x43, 0x3A, 0x1B, 0x50, 0x07], []]))).dev ≠
      (readMeasurement (World.initial [[0x61, 0x03, 0x0C, 0x43, 0xDB, 0x8C, 0x2E, 0x41, 0xD9,
        0xE7, 0xFF, 0x42, 0x43, 0x3A, 0x1B, 0x50, 0x07], []])).dev := by
  decide

/-- C7, amended: for every session state and every response shorter than 15 bytes in the
buffer when `readMeasurement` drains it, the call overwrites all three cached fields whatever
they held before: each becomes the big-endian value of those bytes of its block (offsets 3..6
for CO2, 7..10 for temperature, 11..14 for humidity) that did arrive, which is 0 when none
did; for a response of at most 3 bytes, the empty one included, all three become 0. -/
theorem readMeasurement_short_response (w : World) (resp : List Nat)
    (hresp : w.serial.delay.buffer = resp) (hbytes : ∀ b ∈ resp, b < 256)
    (hlen : resp.length < 15) :
    ((readMeasurement w).dev.co2 = bigEndian ((resp.drop 3).take 4) ∧
      (readMeasurement w).dev.temperature = bigEndian ((resp.drop 7).take 4) ∧
      (readMeasurement w).dev.humidity = bigEndian ((resp.drop 11).take 4)) ∧
    (resp.length ≤ 3 →
      (readMeasurement w).dev.co2 = 0 ∧ (readMeasurement w).dev.temperature = 0 ∧
        (readMeasurement w).dev.humidity = 0) := by
  have hdev := readMeasurement_dev w (by rw [hresp]; exact hbytes) (by rw [hresp]; omega)
  rw [hresp] at hdev
  rw [hdev]
  refine ⟨⟨rfl, rfl, rfl⟩, ?_⟩
  intro h3
  have e3 : resp.drop 3 = [] := List.drop_eq_nil_of_le h3
  have e7 : resp.drop 7 = [] := List.drop_eq_nil_of_le (by omega)
  have e11 : resp.drop 11 = [] := List.drop_eq_nil_of_le (by omega)
  simp only [e3, e7, e11, List.take_nil]
  exact ⟨rfl, rfl, rfl⟩

set_option maxRecDepth 100000 in
theorem readMeasurement_short_response_witness :
    ((World.mk ⟨0x43DB8C2E, 0x41D9E7FF, 0x42433A1B, none⟩
        ⟨[], [0x61, 0x03, 0x0C, 0x43, 0xDB], []⟩).serial.delay.buffer =
        [0x61, 0x03, 0x0C, 0x43, 0xDB] ∧
      (∀ b ∈ [0x61, 0x03, 0x0C, 0x43, 0xDB], b < 256) ∧
      [0x61, 0x03, 0x0C, 0x43, 0xDB].length < 15) ∧
    (((readMeasurement (World.mk ⟨0x43DB8C2E, 0x41D9E7FF, 0x42433A1B, none⟩
          ⟨[], [0x61, 0x03, 0x0C, 0x43, 0xDB], []⟩)).dev.co2 =
        bigEndian (([0x61, 0x03, 0x0C, 0x43, 0xDB].drop 3).take 4) ∧
      (readMeasurement (World.mk ⟨0x43DB8C2E, 0x41D9E7FF, 0x42433A1B, none⟩
          ⟨[], [0x61, 0x03, 0x0C, 0x43, 0xDB], []⟩)).dev.temperature =
        bigEndian (([0x61, 0x03, 0x0C, 0x43, 0xDB].drop 7).take 4) ∧
      (readMeasurement (World.mk ⟨0x43DB8C2E, 0x41D9E7FF, 0x42433A1B, none⟩
          ⟨[], [0x61, 0x03, 0x0C, 0x43, 0xDB], []⟩)).dev.humidity =
        bigEndian (([0x61, 0x03, 0x0C, 0x43, 0xDB].drop 11).take 4)) ∧
    ([0x61, 0x03, 0x0C, 0x43, 0xDB].length ≤ 3 →
      (readMeasurement (World.mk ⟨0x43DB8C2E, 0x41D9E7FF, 0x42433A1B, none⟩
          ⟨[], [0x61, 0x03, 0x0C, 0x43, 0xDB], []⟩)).dev.co2 = 0 ∧
      (readMeasurement (World.mk ⟨0x43DB8C2E, 0x41D9E7FF, 0x42433A1B, none⟩
          ⟨[], [0x61, 0x03, 0x0C, 0x43, 0xDB], []⟩)).dev.temperature = 0 ∧
      (readMeasurement (World.mk ⟨0x43DB8C2E, 0x41D9E7FF, 0x42433A1B, none⟩
          ⟨[], [0x61, 0x03, 0x0C, 0x43, 0xDB], []⟩)).dev.humidity = 0)) :=
  ⟨⟨by decide, by decide, by decide⟩,
    readMeasurement_short_response _ [0x61, 0x03, 0x0C, 0x43, 0xDB] (by decide) (by decide)
      (by decide)⟩

/-! ## `getCO2` -/

/-- The conversion of a positive normal `float` with biased exponent `e` below 150 and
fraction `f`, when its truncation `m` is positive and fits 16 bits. -/
theorem floatToUint16_normal (e f m : Nat) (hf : f < 2 ^ 23) (h0 : 0 < e) (h150 : e < 150)
    (hm : (2 ^ 23 + f) / 2 ^ (150 - e) = m) (hpos : 0 < m) (hle : m ≤ 65535) :
    floatToUint16 (e * 2 ^ 23 + f) = some m := by
  have hsign : (e * 2 ^ 23 + f) / 2 ^ 31 % 2 = 0 := by
    norm_num at hf ⊢
    omega
  have hexp : (e * 2 ^ 23 + f) / 2 ^ 23 % 256 = e := by
    norm_num at hf ⊢
    omega
  have hfrac : (e * 2 ^ 23 + f) % 2 ^ 23 = f := by
    norm_num at hf ⊢
    omega
  unfold floatToUint16
  simp only [hexp, hsign, hfrac, hm]
  have hinner : (if e = 0 then 0 else if e < 150 then m else (2 ^ 23 + f) * 2 ^ (e - 150)) = m := by
    rw [if_neg (by omega), if_pos h150]
  rw [hinner, if_neg (by omega), if_neg (by omega), if_neg (by decide), if_pos hle]

/-- Zero and the subnormal numbers convert to 0. -/
theorem floatToUint16_subnormal (bits : Nat) (h : bits < 2 ^ 23) :
    floatToUint16 bits = some 0 := by
  have hexp : bits / 2 ^ 23 % 256 = 0 := by
    rw [Nat.div_eq_of_lt h]
  unfold floatToUint16
  simp only [hexp]
  rfl

theorem leadingBit_spec (fuel : Nat) :
    ∀ n, 0 < n → n < 2 ^ fuel →
      2 ^ leadingBit fuel n ≤ n ∧ n < 2 ^ (leadingBit fuel n + 1) := by
  induction fuel with
  | zero => intro n h0 h; simp at h; omega
  | succ fuel ih =>
    intro n h0 h
    rw [leadingBit]
    by_cases h2 : n < 2
    · rw [if_pos h2]
      simp only [Nat.pow_zero, Nat.zero_add, Nat.pow_one]
      omega
    · rw [if_neg h2]
      have hhalf := ih (n / 2) (by omega) (by rw [Nat.pow_succ] at h; omega)
      rw [Nat.pow_succ, Nat.pow_succ]
      omega

/-- The conversion gives back every integer of 16 bits from its single-precision pattern. -/
theorem floatToUint16_floatBitsOfNat (n : Nat) (hn : n ≤ 65535) :
    floatToUint16 (floatBitsOfNat n) = some n := by
  by_cases hz : n = 0
  · subst hz
    exact floatToUint16_subnormal 0 (by decide)
  · have hspec := leadingBit_spec 24 n (by omega) (by norm_num; omega)
    have hlo := hspec.1
    have hhi := hspec.2
    have he : leadingBit 24 n < 16 := by
      by_contra hc
      have h16 : 2 ^ 16 ≤ 2 ^ leadingBit 24 n := Nat.pow_le_pow_right (by decide) (by omega)
      omega
    unfold floatBitsOfNat
    rw [if_neg hz]
    generalize leadingBit 24 n = e at hlo hhi he ⊢
    interval_cases e <;>
    · norm_num at hlo hhi
      apply floatToUint16_normal _ _ _ _ (by omega) (by omega) _ (by omega) (by omega)
      · norm_num
        omega
      · norm_num
        omega

theorem bigEndian_bigEndian32 (x : Nat) (hx : x < 2 ^ 32) :
    bigEndian (bigEndian32 x) = x := by
  simp only [bigEndian, bigEndian32, List.foldl_cons, List.foldl_nil]
  norm_num at hx ⊢
  omega

theorem floatBitsOfNat_lt (n : Nat) (hn : n ≤ 65535) : floatBitsOfNat n < 2 ^ 32 := by
  by_cases hz : n = 0
  · subst hz
    decide
  · have hspec := leadingBit_spec 24 n (by omega) (by norm_num; omega)
    have hlo := hspec.1
    have hhi := hspec.2
    have he : leadingBit 24 n < 16 := by
      by_contra hc
      have h16 : 2 ^ 16 ≤ 2 ^ leadingBit 24 n := Nat.pow_le_pow_right (by decide) (by omega)
      omega
    unfold floatBitsOfNat
    rw [if_neg hz]
    generalize leadingBit 24 n = e at hlo hhi he ⊢
    interval_cases e <;>
    · norm_num at hlo hhi ⊢
      omega

/-- The members of the object are not touched by `dataAvailable`. -/
theorem dataAvailable_dev (w : World) : (dataAvailable w).2.dev = w.dev := by
  rw [dataAvailable_world]

/-- What `getCO2` returns when its ready poll says no: the conversion of the cached `co2`. -/
theorem getCO2_not_ready (w : World) (hpoll : (dataAvailable w).1 = false) :
    (getCO2 w).1 = floatToUint16 w.dev.co2 := by
  simp only [getCO2, hpoll, Bool.false_eq_true, if_false, dataAvailable_dev]

/-- The CO2 block of a response whose bytes 3..6 are the big-endian bytes of `x`. -/
theorem readMeasurement_co2_block (w : World) (x b0 b1 b2 : Nat) (rest : List Nat)
    (hx : x < 2 ^ 32) (hrest : rest.length = 10) (hbytes : ∀ b ∈ [b0, b1, b2] ++ rest, b < 256)
    (hresp : w.serial.delay.buffer = [b0, b1, b2] ++ bigEndian32 x ++ rest) :
    (readMeasurement w).dev.co2 = x := by
  have hall : ∀ b ∈ w.serial.delay.buffer, b < 256 := by
    rw [hresp]
    intro b hb
    simp only [List.mem_append, List.mem_cons, List.mem_singleton, List.not_mem_nil, or_false,
      bigEndian32] at hb
    rcases hb with (h | h) | h
    · exact hbytes b (List.mem_append_left _ (by
        simp only [List.mem_cons, List.not_mem_nil, or_false]; exact h))
    · omega
    · exact hbytes b (List.mem_append_right _ h)
  have hlen : w.serial.delay.buffer.length ≤ 259 := by
    rw [hresp]
    simp [bigEndian32, hrest]
  rw [readMeasurement_dev w hall hlen, hresp]
  show bigEndian ((([b0, b1, b2] ++ bigEndian32 x ++ rest).drop 3).take 4) = x
  have hdrop : (([b0, b1, b2] ++ bigEndian32 x ++ rest).drop 3).take 4 = bigEndian32 x := by
    simp [bigEndian32]
  rw [hdrop, bigEndian_bigEndian32 x hx]

set_option maxRecDepth 100000 in
/-- C8, as stated, fails at its own witness `n = 512`: with bytes 3..6 equal to
`0x00 0x00 0x02 0x00` the cached pattern is `0x00000200`, a subnormal `float`, and `getCO2`
(ready poll answered by silence) returns 0, not 512. -/
theorem getCO2_integer_512 :
    (readMeasurement (World.initial [[0x61, 0x03, 0x0C, 0x00, 0x00, 0x02, 0x00, 0x41, 0xAC,
        0x00, 0x00, 0x42, 0x34, 0x00, 0x00, 0x50, 0x07], []])).dev.co2 = 0x00000200 ∧
    (dataAvailable (readMeasurement (World.initial [[0x61, 0x03, 0x0C, 0x00, 0x00, 0x02, 0x00,
        0x41, 0xAC, 0x00, 0x00, 0x42, 0x34, 0x00, 0x00, 0x50, 0x07], []]))).1 = false ∧
    (getCO2 (readMeasurement (World.initial [[0x61, 0x03, 0x0C, 0x00, 0x00, 0x02, 0x00, 0x41,
        0xAC, 0x00, 0x00, 0x42, 0x34, 0x00, 0x00, 0x50, 0x07], []]))).1 = some 0 ∧
    (getCO2 (readMeasurement (World.initial [[0x61, 0x03, 0x0C, 0x00, 0x00, 0x02, 0x00, 0x41,
        0xAC, 0x00, 0x00, 0x42, 0x34, 0x00, 0x00, 0x50, 0x07], []]))).1 ≠ some 512 := by
  decide

/-- When bytes 3..6 hold `n` as a big-endian unsigned integer, `n ≤ 65535`, the cached
`float` is zero or subnormal and `getCO2` returns 0. -/
theorem getCO2_integer_block (w : World) (n b0 b1 b2 : Nat) (rest : List Nat)
    (hn : n ≤ 65535) (hrest : rest.length = 10) (hbytes : ∀ b ∈ [b0, b1, b2] ++ rest, b < 256)
    (hresp : w.serial.delay.buffer = [b0, b1, b2] ++ bigEndian32 n ++ rest)
    (hpoll : (dataAvailable (readMeasurement w)).1 = false) :
    (getCO2 (readMeasurement w)).1 = some 0 := by
  have hco2 := readMeasurement_co2_block w n b0 b1 b2 rest (by norm_num; omega) hrest hbytes hresp
  rw [getCO2_not_ready _ hpoll, hco2]
  exact floatToUint16_subnormal n (by norm_num; omega)

/-- C8, amended: for every integer `n` with `0 ≤ n ≤ 65535` and every 17-byte response whose
bytes 3..6 are the big-endian IEEE-754 single-precision encoding of `n`, `readMeasurement`
caches that bit pattern and `getCO2`, called next with no newer data ready, returns `n`: the
32-bit block is reinterpreted as a `float` and converted to 16 bits by truncation toward
zero. -/
theorem getCO2_float_block (w : World) (n b0 b1 b2 : Nat) (rest : List Nat)
    (hn : n ≤ 65535) (hrest : rest.length = 10) (hbytes : ∀ b ∈ [b0, b1, b2] ++ rest, b < 256)
    (hresp : w.serial.delay.buffer = [b0, b1, b2] ++ bigEndian32 (floatBitsOfNat n) ++ rest)
    (hpoll : (dataAvailable (readMeasurement w)).1 = false) :
    (readMeasurement w).dev.co2 = floatBitsOfNat n ∧
      (getCO2 (readMeasurement w)).1 = some n := by
  have hco2 := readMeasurement_co2_block w (floatBitsOfNat n) b0 b1 b2 rest
    (floatBitsOfNat_lt n hn) hrest hbytes hresp
  refine ⟨hco2, ?_⟩
  rw [getCO2_not_ready _ hpoll, hco2]
  exact floatToUint16_floatBitsOfNat n hn

set_option maxRecDepth 100000 in
theorem getCO2_float_block_witness :
    ([0x41, 0xAC, 0x00, 0x00, 0x42, 0x34, 0x00, 0x00, 0x50, 0x07].length = 10 ∧
      (∀ b ∈ [0x61, 0x03, 0x0C] ++ [0x41, 0xAC, 0x00, 0x00, 0x42, 0x34, 0x00, 0x00, 0x50, 0x07],
        b < 256) ∧
      512 ≤ 65535 ∧
      (World.initial
        [[0x61, 0x03, 0x0C, 0x44, 0x00, 0x00, 0x00, 0x41, 0xAC, 0x00, 0x00, 0x42, 0x34, 0x00, 0x00,
          0x50, 0x07], []]).serial.delay.buffer =
        [0x61, 0x03, 0x0C] ++ bigEndian32 (floatBitsOfNat 512) ++
          [0x41, 0xAC, 0x00, 0x00, 0x42, 0x34, 0x00, 0x00, 0x50, 0x07] ∧
      (dataAvailable (readMeasurement (World.initial
        [[0x61, 0x03, 0x0C, 0x44, 0x00, 0x00, 0x00, 0x41, 0xAC, 0x00, 0x00, 0x42, 0x34, 0x00, 0x00,
          0x50, 0x07], []]))).1 = false ∧
      0 ≤ 65535 ∧
      (World.initial
        [[0x61, 0x03, 0x0C, 0x00, 0x00, 0x00, 0x00, 0x41, 0xAC, 0x00, 0x00, 0x42, 0x34, 0x00, 0x00,
          0x50, 0x07], []]).serial.delay.buffer =
        [0x61, 0x03, 0x0C] ++ bigEndian32 (floatBitsOfNat 0) ++
          [0x41, 0xAC, 0x00, 0x00, 0x42, 0x34, 0x00, 0x00, 0x50, 0x07] ∧
      (dataAvailable (readMeasurement (World.initial
        [[0x61, 0x03, 0x0C, 0x00, 0x00, 0x00, 0x00, 0x41, 0xAC, 0x00, 0x00, 0x42, 0x34, 0x00, 0x00,
          0x50, 0x07], []]))).1 = false ∧
      65535 ≤ 65535 ∧
      (World.initial
        [[0x61, 0x03, 0x0C, 0x47, 0x7F, 0xFF, 0x00, 0x41, 0xAC, 0x00, 0x00, 0x42, 0x34, 0x00, 0x00,
          0x50, 0x07], []]).serial.delay.buffer =
        [0x61, 0x03, 0x0C] ++ bigEndian32 (floatBitsOfNat 65535) ++
          [0x41, 0xAC, 0x00, 0x00, 0x42, 0x34, 0x00, 0x00, 0x50, 0x07] ∧
      (dataAvailable (readMeasurement (World.initial
        [[0x61, 0x03, 0x0C, 0x47, 0x7F, 0xFF, 0x00, 0x41, 0xAC, 0x00, 0x00, 0x42, 0x34, 0x00, 0x00,
          0x50, 0x07], []]))).1 = false) ∧
    ((readMeasurement (World.initial
        [[0x61, 0x03, 0x0C, 0x44, 0x00, 0x00, 0x00, 0x41, 0xAC, 0x00, 0x00, 0x42, 0x34, 0x00, 0x00,
          0x50, 0x07], []])).dev.co2 = floatBitsOfNat 512 ∧
      (getCO2 (readMeasurement (World.initial
        [[0x61, 0x03, 0x0C, 0x44, 0x00, 0x00, 0x00, 0x41, 0xAC, 0x00, 0x00, 0x42, 0x34, 0x00, 0x00,
          0x50, 0x07], []]))).1 = some 512) ∧
    ((readMeasurement (World.initial
        [[0x61, 0x03, 0x0C, 0x00, 0x00, 0x00, 0x00, 0x41, 0xAC, 0x00, 0x00, 0x42, 0x34, 0x00, 0x00,
          0x50, 0x07], []])).dev.co2 = floatBitsOfNat 0 ∧
      (getCO2 (readMeasurement (World.initial
        [[0x61, 0x03, 0x0C, 0x00, 0x00, 0x00, 0x00, 0x41, 0xAC, 0x00, 0x00, 0x42, 0x34, 0x00, 0x00,
          0x50, 0x07], []]))).1 = some 0) ∧
    ((readMeasurement (World.initial
        [[0x61, 0x03, 0x0C, 0x47, 0x7F, 0xFF, 0x00, 0x41, 0xAC, 0x00, 0x00, 0x42, 0x34, 0x00, 0x00,
          0x50, 0x07], []])).dev.co2 = floatBitsOfNat 65535 ∧
      (getCO2 (readMeasurement (World.initial
        [[0x61, 0x03, 0x0C, 0x47, 0x7F, 0xFF, 0x00, 0x41, 0xAC, 0x00, 0x00, 0x42, 0x34, 0x00, 0x00,
          0x50, 0x07], []]))).1 = some 65535) :=
  ⟨⟨by decide, by decide, by decide, by decide, by decide, by decide, by decide, by decide,
      by decide, by decide, by decide⟩,
    getCO2_float_block _ 512 0x61 0x03 0x0C
      [0x41, 0xAC, 0x00, 0x00, 0x42, 0x34, 0x00, 0x00, 0x50, 0x07]
      (by decide) (by decide) (by decide) (by decide) (by decide),
    getCO2_float_block _ 0 0x61 0x03 0x0C
      [0x41, 0xAC, 0x00, 0x00, 0x42, 0x34, 0x00, 0x00, 0x50, 0x07]
      (by decide) (by decide) (by decide) (by decide) (by decide),
    getCO2_float_block _ 65535 0x61 0x03 0x0C
      [0x41, 0xAC, 0x00, 0x00, 0x42, 0x34, 0x00, 0x00, 0x50, 0x07]
      (by decide) (by decide) (by decide) (by decide) (by decide)⟩

/-! ## Setters with a range -/

/-- The bytes written once `sendCommand` and then `clearBuffer` have run. -/
theorem clearBuffer_sendCommand_written (w : World) (fc addr arg : Nat) :
    (clearBuffer (sendCommand w fc addr arg)).serial.written =
      w.serial.written ++ sendCommandData fc addr arg := by
  rw [sendCommand_eq]
  simp only [clearBuffer, HardwareSerial.delay, HardwareSerial.drained]
  cases h : w.serial.incoming <;> simp

/-- Neither `sendCommand` nor `clearBuffer` touches the members of the object. -/
theorem clearBuffer_sendCommand_dev (w : World) (fc addr arg : Nat) :
    (clearBuffer (sendCommand w fc addr arg)).dev = w.dev := by
  rw [sendCommand_eq]
  rfl

/-- C9: for every 16-bit concentration `c`: when `c < 400` or `c > 2000`,
`setForcedRecalibrationValue` leaves the whole world as it was (nothing written, nothing
read, no member changed); when `400 ≤ c ≤ 2000` it writes exactly one frame of 8 bytes, the
one `sendCommand` builds for function code 6, register `0x0039` and argument `c`. -/
theorem setForcedRecalibrationValue_range (w : World) (c : Nat) (hc : c < 65536) :
    (c < 400 ∨ 2000 < c → setForcedRecalibrationValue w c = w) ∧
    (400 ≤ c ∧ c ≤ 2000 →
      (setForcedRecalibrationValue w c).serial.written =
          w.serial.written ++ sendCommandData 6 0x0039 c ∧
        (setForcedRecalibrationValue w c).serial.written =
          (sendCommand w 6 0x0039 c).serial.written ∧
        (sendCommandData 6 0x0039 c).length = 8 ∧
        (setForcedRecalibrationValue w c).dev = w.dev) := by
  constructor
  · intro h
    simp only [setForcedRecalibrationValue, Nat.mod_eq_of_lt hc]
    rw [if_pos (by omega)]
  · intro h
    have hrun : setForcedRecalibrationValue w c = clearBuffer (sendCommand w 6 0x0039 c) := by
      simp only [setForcedRecalibrationValue, Nat.mod_eq_of_lt hc]
      rw [if_neg (by omega)]
      rfl
    rw [hrun, clearBuffer_sendCommand_written, clearBuffer_sendCommand_dev, sendCommand_eq]
    exact ⟨rfl, rfl, sendCommandData_length _ _ _, rfl⟩

set_option maxRecDepth 100000 in
theorem setForcedRecalibrationValue_range_witness :
    (399 < 65536 ∧ 2001 < 65536 ∧ 400 < 65536 ∧ 2000 < 65536) ∧
    (setForcedRecalibrationValue (World.initial [[1, 2, 3]]) 399 = World.initial [[1, 2, 3]] ∧
      setForcedRecalibrationValue (World.initial [[1, 2, 3]]) 2001 = World.initial [[1, 2, 3]] ∧
      (setForcedRecalibrationValue (World.initial [[1, 2, 3]]) 400).serial.written =
        (World.initial [[1, 2, 3]]).serial.written ++ sendCommandData 6 0x0039 400 ∧
      (setForcedRecalibrationValue (World.initial [[1, 2, 3]]) 2000).serial.written =
        (World.initial [[1, 2, 3]]).serial.written ++ sendCommandData 6 0x0039 2000) :=
  ⟨by decide,
    (setForcedRecalibrationValue_range (World.initial [[1, 2, 3]]) 399 (by decide)).1
      (by decide),
    (setForcedRecalibrationValue_range (World.initial [[1, 2, 3]]) 2001 (by decide)).1
      (by decide),
    ((setForcedRecalibrationValue_range (World.initial [[1, 2, 3]]) 400 (by decide)).2
      (by decide)).1,
    ((setForcedRecalibrationValue_range (World.initial [[1, 2, 3]]) 2000 (by decide)).2
      (by decide)).1⟩

/-- C10: for every 16-bit pressure `p`, `setAmbientPressure` writes exactly one frame of 8
bytes, the one `sendCommand` builds for function code 6, register `0x0036` and argument `a`,
where `a = p` when `700 ≤ p ≤ 1200` and `a = 0` otherwise. -/
theorem setAmbientPressure_frame (w : World) (p : Nat) (hp : p < 65536) :
    (setAmbientPressure w p).serial.written =
        w.serial.written ++ sendCommandData 6 0x0036 (if 700 ≤ p ∧ p ≤ 1200 then p else 0) ∧
      (setAmbientPressure w p).serial.written =
        (sendCommand w 6 0x0036 (if 700 ≤ p ∧ p ≤ 1200 then p else 0)).serial.written ∧
      (sendCommandData 6 0x0036 (if 700 ≤ p ∧ p ≤ 1200 then p else 0)).length = 8 := by
  have harg : (if p < 700 ∨ p > 1200 then 0 else p) = (if 700 ≤ p ∧ p ≤ 1200 then p else 0) := by
    by_cases h : 700 ≤ p ∧ p ≤ 1200
    · rw [if_pos h, if_neg (by omega)]
    · rw [if_neg h, if_pos (by omega)]
  have hrun : setAmbientPressure w p =
      clearBuffer (sendCommand w 6 0x0036 (if 700 ≤ p ∧ p ≤ 1200 then p else 0)) := by
    simp only [setAmbientPressure, Nat.mod_eq_of_lt hp, harg]
    rfl
  rw [hrun, clearBuffer_sendCommand_written, sendCommand_eq]
  exact ⟨rfl, rfl, sendCommandData_length _ _ _⟩

set_option maxRecDepth 100000 in
theorem setAmbientPressure_frame_witness :
    (699 < 65536 ∧ 1201 < 65536 ∧ 700 < 65536 ∧ 1200 < 65536) ∧
    ((setAmbientPressure (World.initial []) 699).serial.written =
        (World.initial []).serial.written ++ sendCommandData 6 0x0036 0 ∧
      (setAmbientPressure (World.initial []) 1201).serial.written =
        (World.initial []).serial.written ++ sendCommandData 6 0x0036 0 ∧
      (setAmbientPressure (World.initial []) 700).serial.written =
        (World.initial []).serial.written ++ sendCommandData 6 0x0036 700 ∧
      (setAmbientPressure (World.initial []) 1200).serial.written =
        (World.initial []).serial.written ++ sendCommandData 6 0x0036 1200) :=
  ⟨by decide,
    (setAmbientPressure_frame (World.initial []) 699 (by decide)).1,
    (setAmbientPressure_frame (World.initial []) 1201 (by decide)).1,
    (setAmbientPressure_frame (World.initial []) 700 (by decide)).1,
    (setAmbientPressure_frame (World.initial []) 1200 (by decide)).1⟩

/-! ## Getters -/

/-- The bytes on the wire after `readMeasurement`: one read-measurement request more. -/
theorem readMeasurement_written (w : World) :
    (readMeasurement w).serial.written =
      w.serial.written ++
        sendCommandData SCD30_READ_HOLDING_REGISTERS SCD30_READ_MEASUREMENT 6 := by
  rw [readMeasurement_eq]

/-- The world a getter ends in: the one after the ready poll, and after `readMeasurement` on
top of it when the poll returned true. -/
theorem getter_world (w : World) :
    (getCO2 w).2 =
        (if (dataAvailable w).1 = true then readMeasurement (dataAvailable w).2
          else (dataAvailable w).2) ∧
      (getTemperatureC w).2 =
        (if (dataAvailable w).1 = true then readMeasurement (dataAvailable w).2
          else (dataAvailable w).2) ∧
      (getHumidity w).2 =
        (if (dataAvailable w).1 = true then readMeasurement (dataAvailable w).2
          else (dataAvailable w).2) :=
  ⟨rfl, rfl, rfl⟩

/-- The bytes a world holds on the wire after the ready poll and the read that follows it
when the poll returned true. -/
theorem poll_then_read_written (w : World) :
    (if (dataAvailable w).1 = true then readMeasurement (dataAvailable w).2
        else (dataAvailable w).2).serial.written =
      w.serial.written ++ sendCommandData 3 0x0027 1 ++
        (if (dataAvailable w).1 = true then sendCommandData 3 0x0028 6 else []) := by
  by_cases h : (dataAvailable w).1 = true
  · rw [if_pos h, if_pos h, readMeasurement_written, dataAvailable_world]
    rfl
  · rw [if_neg h, if_neg h, dataAvailable_world, List.append_nil]
    rfl

/-- C11: each of `getCO2`, `getTemperatureC` and `getHumidity`, from every world (session
state, buffered bytes and bytes still to come), first writes the ready-status request
(function 3, register `0x0027`, argument 1), then writes the read-measurement request
(function 3, register `0x0028`, argument 6) once when the ready poll returned true and not at
all when it returned false, writes nothing else, and returns its cached field as it stands in
the world after these steps (`getCO2` returns it converted to `uint16_t`). -/
theorem getters_poll_then_read (w : World) :
    ((getCO2 w).2.serial.written =
        w.serial.written ++ sendCommandData 3 0x0027 1 ++
          (if (dataAvailable w).1 = true then sendCommandData 3 0x0028 6 else []) ∧
      (getCO2 w).2 =
        (if (dataAvailable w).1 = true then readMeasurement (dataAvailable w).2
          else (dataAvailable w).2) ∧
      (getCO2 w).1 = floatToUint16 (getCO2 w).2.dev.co2) ∧
    ((getTemperatureC w).2.serial.written =
        w.serial.written ++ sendCommandData 3 0x0027 1 ++
          (if (dataAvailable w).1 = true then sendCommandData 3 0x0028 6 else []) ∧
      (getTemperatureC w).2 =
        (if (dataAvailable w).1 = true then readMeasurement (dataAvailable w).2
          else (dataAvailable w).2) ∧
      (getTemperatureC w).1 = (getTemperatureC w).2.dev.temperature) ∧
    ((getHumidity w).2.serial.written =
        w.serial.written ++ sendCommandData 3 0x0027 1 ++
          (if (dataAvailable w).1 = true then sendCommandData 3 0x0028 6 else []) ∧
      (getHumidity w).2 =
        (if (dataAvailable w).1 = true then readMeasurement (dataAvailable w).2
          else (dataAvailable w).2) ∧
      (getHumidity w).1 = (getHumidity w).2.dev.humidity) := by
  have hw := getter_world w
  have hwr := poll_then_read_written w
  refine ⟨⟨?_, hw.1, rfl⟩, ⟨?_, hw.2.1, rfl⟩, ⟨?_, hw.2.2, rfl⟩⟩
  · rw [hw.1]; exact hwr
  · rw [hw.2.1]; exact hwr
  · rw [hw.2.2]; exact hwr

/-- A poll that reports not ready has not read a 1 at index 4. -/
theorem dataAvailable_false_index_4 (w : World) (hpoll : (dataAvailable w).1 = false) :
    w.serial.delay.buffer.length < 5 ∨ w.serial.delay.buffer.getD 4 0 % 256 ≠ 1 := by
  by_cases hlen : w.serial.delay.buffer.length < 5
  · exact Or.inl hlen
  · right
    intro h1
    have htrue : dataAvailableLoop w.serial.delay.buffer 0 false = true :=
      (dataAvailableLoop_eq_true_iff _ 0 false (by decide)).2
        (Or.inr ⟨4, by omega, by decide, h1⟩)
    rw [dataAvailable_result, htrue] at hpoll
    exact absurd hpoll (by decide)

/-- For a response of at most 260 bytes the poll reports not ready exactly when the response
is shorter than 5 bytes or its byte at index 4 is not 1. -/
theorem dataAvailable_false_iff (w : World) (hbytes : ∀ b ∈ w.serial.delay.buffer, b < 256)
    (hlen : w.serial.delay.buffer.length ≤ 260) :
    (dataAvailable w).1 = false ↔
      w.serial.delay.buffer.length < 5 ∨ w.serial.delay.buffer.getD 4 0 ≠ 1 := by
  have h := dataAvailableLoop_le_260 _ hbytes hlen
  rw [dataAvailable_result]
  constructor
  · intro hf
    by_contra hc
    have : dataAvailableLoop w.serial.delay.buffer 0 false = true :=
      h.2 ⟨by omega, by
        by_contra h1
        exact hc (Or.inr h1)⟩
    rw [this] at hf
    exact absurd hf (by decide)
  · intro hc
    cases hres : dataAvailableLoop w.serial.delay.buffer 0 false with
    | false => rfl
    | true =>
      have := h.1 hres
      rcases hc with hc | hc
      · omega
      · exact absurd this.2 hc

/-- C12: when the ready poll of a getter reports not ready (the drained response is then
shorter than 5 bytes or its byte at index 4 is not 1), `getCO2`, `getTemperatureC` and
`getHumidity` leave the cached `co2`, `temperature` and `humidity` unchanged and return the
field cached before the call (`getCO2` converted to `uint16_t`); for a freshly constructed
session that value is 0. -/
theorem getters_not_ready_return_stale (w : World) (hpoll : (dataAvailable w).1 = false) :
    (w.serial.delay.buffer.length < 5 ∨ w.serial.delay.buffer.getD 4 0 % 256 ≠ 1) ∧
    ((getCO2 w).2.dev = w.dev ∧ (getCO2 w).1 = floatToUint16 w.dev.co2) ∧
    ((getTemperatureC w).2.dev = w.dev ∧ (getTemperatureC w).1 = w.dev.temperature) ∧
    ((getHumidity w).2.dev = w.dev ∧ (getHumidity w).1 = w.dev.humidity) ∧
    (w.dev = SCD30.new →
      (getCO2 w).1 = some 0 ∧ (getTemperatureC w).1 = 0 ∧ (getHumidity w).1 = 0) := by
  have hc : (getCO2 w).2 = (dataAvailable w).2 := by
    simp only [getCO2, hpoll, Bool.false_eq_true, if_false]
  have ht : (getTemperatureC w).2 = (dataAvailable w).2 := by
    simp only [getTemperatureC, hpoll, Bool.false_eq_true, if_false]
  have hh : (getHumidity w).2 = (dataAvailable w).2 := by
    simp only [getHumidity, hpoll, Bool.false_eq_true, if_false]
  have hc1 : (getCO2 w).1 = floatToUint16 w.dev.co2 := getCO2_not_ready w hpoll
  have ht1 : (getTemperatureC w).1 = w.dev.temperature := by
    simp only [getTemperatureC, hpoll, Bool.false_eq_true, if_false, dataAvailable_dev]
  have hh1 : (getHumidity w).1 = w.dev.humidity := by
    simp only [getHumidity, hpoll, Bool.false_eq_true, if_false, dataAvailable_dev]
  refine ⟨dataAvailable_false_index_4 w hpoll, ⟨?_, hc1⟩, ⟨?_, ht1⟩, ⟨?_, hh1⟩, ?_⟩
  · rw [hc, dataAvailable_dev]
  · rw [ht, dataAvailable_dev]
  · rw [hh, dataAvailable_dev]
  · intro hnew
    rw [hc1, ht1, hh1, hnew]
    exact ⟨rfl, rfl, rfl⟩

set_option maxRecDepth 100000 in
theorem getters_not_ready_return_stale_witness :
    (dataAvailable (World.mk ⟨0x43DB8C2E, 0x41D9E7FF, 0x42433A1B, none⟩
        ⟨[], [], [[0x61, 0x03, 0x02, 0x00, 0x00, 0x38, 0x4C]]⟩)).1 = false ∧
    (getCO2 (World.mk ⟨0x43DB8C2E, 0x41D9E7FF, 0x42433A1B, none⟩
        ⟨[], [], [[0x61, 0x03, 0x02, 0x00, 0x00, 0x38, 0x4C]]⟩)).2.dev =
      ⟨0x43DB8C2E, 0x41D9E7FF, 0x42433A1B, none⟩ ∧
    (getCO2 (World.mk ⟨0x43DB8C2E, 0x41D9E7FF, 0x42433A1B, none⟩
        ⟨[], [], [[0x61, 0x03, 0x02, 0x00, 0x00, 0x38, 0x4C]]⟩)).1 = some 439 ∧
    (getTemperatureC (World.mk ⟨0x43DB8C2E, 0x41D9E7FF, 0x42433A1B, none⟩
        ⟨[], [], [[0x61, 0x03, 0x02, 0x00, 0x00, 0x38, 0x4C]]⟩)).1 = 0x41D9E7FF ∧
    (getHumidity (World.mk ⟨0x43DB8C2E, 0x41D9E7FF, 0x42433A1B, none⟩
        ⟨[], [], [[0x61, 0x03, 0x02, 0x00, 0x00, 0x38, 0x4C]]⟩)).1 = 0x42433A1B :=
  ⟨by decide,
    (getters_not_ready_return_stale (World.mk ⟨0x43DB8C2E, 0x41D9E7FF, 0x42433A1B, none⟩
      ⟨[], [], [[0x61, 0x03, 0x02, 0x00, 0x00, 0x38, 0x4C]]⟩) (by decide)).2.1.1,
    (getters_not_ready_return_stale (World.mk ⟨0x43DB8C2E, 0x41D9E7FF, 0x42433A1B, none⟩
      ⟨[], [], [[0x61, 0x03, 0x02, 0x00, 0x00, 0x38, 0x4C]]⟩) (by decide)).2.1.2,
    (getters_not_ready_return_stale (World.mk ⟨0x43DB8C2E, 0x41D9E7FF, 0x42433A1B, none⟩
      ⟨[], [], [[0x61, 0x03, 0x02, 0x00, 0x00, 0x38, 0x4C]]⟩) (by decide)).2.2.1.2,
    (getters_not_ready_return_stale (World.mk ⟨0x43DB8C2E, 0x41D9E7FF, 0x42433A1B, none⟩
      ⟨[], [], [[0x61, 0x03, 0x02, 0x00, 0x00, 0x38, 0x4C]]⟩) (by decide)).2.2.2.1.2⟩

/-! ## `getFirmwareVersion` -/

/-- On a platform whose pointers have a size, which is every platform, `getFirmwareVersion`
is `clearBuffer` followed by the return of the pointer member as it is. -/
theorem getFirmwareVersion_eq (sizeofPointer : Nat) (hsize : sizeofPointer ≠ 0) (w : World) :
    getFirmwareVersion sizeofPointer w = (w.dev.firmwareVersion, clearBuffer w) := by
  unfold getFirmwareVersion
  rw [if_neg hsize]
  rfl

/-- C13, the failing input: a fresh session with the 7-byte firmware response
`61 03 02 03 42 B8 8D` in the buffer. Whether pointers take 2, 4 or 8 bytes, the test
`sizeof(firmwareVersion) == 0` fails, the decoding branch is skipped, and the call returns the
pointer member that nothing has assigned, not the pair `(0x03, 0x42)`; the response is read
and dropped, and a second call returns the unassigned pointer again. -/
theorem getFirmwareVersion_never_decodes :
    (getFirmwareVersion 2 (World.mk SCD30.new
        ⟨[], [0x61, 0x03, 0x02, 0x03, 0x42, 0xB8, 0x8D], []⟩)).1 = none ∧
    (getFirmwareVersion 4 (World.mk SCD30.new
        ⟨[], [0x61, 0x03, 0x02, 0x03, 0x42, 0xB8, 0x8D], []⟩)).1 = none ∧
    (getFirmwareVersion 8 (World.mk SCD30.new
        ⟨[], [0x61, 0x03, 0x02, 0x03, 0x42, 0xB8, 0x8D], []⟩)).1 = none ∧
    (getFirmwareVersion 2 (World.mk SCD30.new
        ⟨[], [0x61, 0x03, 0x02, 0x03, 0x42, 0xB8, 0x8D], []⟩)).1 ≠ some (0x03, 0x42) ∧
    (getFirmwareVersion 2 (World.mk SCD30.new
        ⟨[], [0x61, 0x03, 0x02, 0x03, 0x42, 0xB8, 0x8D], []⟩)).2.serial.buffer = [] ∧
    (getFirmwareVersion 2 (getFirmwareVersion 2 (World.mk SCD30.new
        ⟨[], [0x61, 0x03, 0x02, 0x03, 0x42, 0xB8, 0x8D], []⟩)).2).1 = none := by
  decide

/-! ## Bytes outside the three blocks -/

/-- For two responses of at most 259 bytes that agree on offsets 3 to 14, `readMeasurement`
caches the same three values. -/
theorem readMeasurement_same_blocks (w1 w2 : World)
    (hbytes1 : ∀ b ∈ w1.serial.delay.buffer, b < 256)
    (hbytes2 : ∀ b ∈ w2.serial.delay.buffer, b < 256)
    (hlen1 : w1.serial.delay.buffer.length ≤ 259)
    (hlen2 : w2.serial.delay.buffer.length ≤ 259)
    (hsame : (w1.serial.delay.buffer.drop 3).take 12 = (w2.serial.delay.buffer.drop 3).take 12) :
    (readMeasurement w1).dev.co2 = (readMeasurement w2).dev.co2 ∧
      (readMeasurement w1).dev.temperature = (readMeasurement w2).dev.temperature ∧
      (readMeasurement w1).dev.humidity = (readMeasurement w2).dev.humidity := by
  have hblocks : ∀ l : List Nat,
      (l.drop 3).take 4 = ((l.drop 3).take 12).take 4 ∧
        (l.drop 7).take 4 = (((l.drop 3).take 12).drop 4).take 4 ∧
        (l.drop 11).take 4 = (((l.drop 3).take 12).drop 8).take 4 := by
    intro l
    refine ⟨?_, ?_, ?_⟩
    · rw [List.take_take]
      rfl
    · rw [List.drop_take, List.drop_drop, List.take_take]
      rfl
    · rw [List.drop_take, List.drop_drop, List.take_take]
      rfl
  have e1 := hblocks w1.serial.delay.buffer
  have e2 := hblocks w2.serial.delay.buffer
  rw [readMeasurement_dev w1 hbytes1 hlen1, readMeasurement_dev w2 hbytes2 hlen2]
  simp only
  rw [e1.1, e1.2.1, e1.2.2, e2.1, e2.2.1, e2.2.2, hsame]
  exact ⟨rfl, rfl, rfl⟩

set_option maxRecDepth 1000000 in
/-- C14, the failing input: the 17-byte response
`61 03 0C 43 DB 8C 2E 41 D9 E7 FF 42 43 3A 1B 50 07` and the same response followed by 242
bytes `00` and one byte `01`, 260 bytes in all. The two agree on offsets 3 to 14, yet the byte
at offset 259 is read while the 8-bit `byteCounter` stands at 3 again and is shifted into the
CO2 accumulator: the cached `co2` is `0x43DB8C2E` after the first and `0xDB8C2E01` after the
second. -/
theorem readMeasurement_byteCounter_wraps :
    (([0x61, 0x03, 0x0C, 0x43, 0xDB, 0x8C, 0x2E, 0x41, 0xD9, 0xE7, 0xFF, 0x42, 0x43, 0x3A, 0x1B,
        0x50, 0x07] ++ List.replicate 242 0 ++ [1]).drop 3).take 12 =
      (([0x61, 0x03, 0x0C, 0x43, 0xDB, 0x8C, 0x2E, 0x41, 0xD9, 0xE7, 0xFF, 0x42, 0x43, 0x3A,
        0x1B, 0x50, 0x07]).drop 3).take 12 ∧
    (readMeasurement (World.initial [[0x61, 0x03, 0x0C, 0x43, 0xDB, 0x8C, 0x2E, 0x41, 0xD9,
        0xE7, 0xFF, 0x42, 0x43, 0x3A, 0x1B, 0x50, 0x07]])).dev.co2 = 0x43DB8C2E ∧
    (readMeasurement (World.initial [[0x61, 0x03, 0x0C, 0x43, 0xDB, 0x8C, 0x2E, 0x41, 0xD9,
        0xE7, 0xFF, 0x42, 0x43, 0x3A, 0x1B, 0x50, 0x07] ++ List.replicate 242 0 ++ [1]])
      ).dev.co2 = 0xDB8C2E01 := by
  decide

/-! ## `beginMeasuring`, `stopMeasuring`, `begin`, `setMeasurementInterval` -/

/-- The 16-bit reduction of the argument at the call is the one `sendCommandData` makes. -/
theorem sendCommandData_mod (fc addr arg : Nat) :
    sendCommandData fc addr (arg % 65536) = sendCommandData fc addr arg := by
  simp only [sendCommandData, Nat.mod_mod]

theorem beginMeasuring_eq (w : World) (p : Nat) :
    beginMeasuring w p = clearBuffer (sendCommand w 6 0x0036 p) := by
  simp only [beginMeasuring, sendCommand, sendCommandData_mod]
  rfl

theorem stopMeasuring_eq (w : World) :
    stopMeasuring w = clearBuffer (sendCommand w 6 0x0037 1) := rfl

theorem setMeasurementInterval_eq (w : World) (i : Nat) :
    setMeasurementInterval w i = clearBuffer (sendCommand w 6 0x0025 i) := by
  simp only [setMeasurementInterval, sendCommand, sendCommandData_mod]
  rfl

/-- C15, as stated, fails: no flag that is a function of the members of the session can be
false at construction and true after `beginMeasuring`, because `beginMeasuring` leaves every
member as it was. -/
theorem no_measurementActive_flag :
    ¬ ∃ measurementActive : SCD30 → Bool,
      measurementActive SCD30.new = false ∧
        (∀ (w : World) (p : Nat), measurementActive (beginMeasuring w p).dev = true) ∧
        (∀ w : World, measurementActive (stopMeasuring w).dev = false) := by
  rintro ⟨flag, hnew, hbegin, _⟩
  have h := hbegin (World.initial []) 0
  rw [beginMeasuring_eq, clearBuffer_sendCommand_dev] at h
  have h' : flag SCD30.new = true := h
  rw [hnew] at h'
  exact absurd h' (by decide)

/-- C15, amended: the session carries no `measurementActive` flag; its members are `co2`,
`temperature`, `humidity` and `firmwareVersion`. For every `p`, `beginMeasuring(p)` leaves all
of them unchanged and writes exactly the frame for function 6, register `0x0036`, argument
`p`; `stopMeasuring()` leaves all of them unchanged and writes exactly the frame for function
6, register `0x0037`, argument 1; both whatever bytes the port holds or returns afterwards. -/
theorem beginMeasuring_stopMeasuring_keep_members (w : World) (p : Nat) :
    ((beginMeasuring w p).dev = w.dev ∧
      (beginMeasuring w p).serial.written = w.serial.written ++ sendCommandData 6 0x0036 p) ∧
    ((stopMeasuring w).dev = w.dev ∧
      (stopMeasuring w).serial.written = w.serial.written ++ sendCommandData 6 0x0037 1) := by
  rw [beginMeasuring_eq, stopMeasuring_eq]
  exact ⟨⟨clearBuffer_sendCommand_dev _ _ _ _, clearBuffer_sendCommand_written _ _ _ _⟩,
    ⟨clearBuffer_sendCommand_dev _ _ _ _, clearBuffer_sendCommand_written _ _ _ _⟩⟩

set_option maxRecDepth 100000 in
/-- C16: `begin` writes exactly 16 bytes: first the frame `sendCommand` builds for function
6, register `0x0036`, argument 0 (`61 06 00 36 00 00 60 64`), then the frame for function 6,
register `0x0025`, argument 2 (`61 06 00 25 00 02 10 60`), and nothing else. -/
theorem begin_writes_two_frames (w : World) :
    (SCD30.begin w).serial.written =
        w.serial.written ++ (sendCommandData 6 0x0036 0 ++ sendCommandData 6 0x0025 2) ∧
      (sendCommandData 6 0x0036 0 ++ sendCommandData 6 0x0025 2).length = 16 ∧
      sendCommandData 6 0x0036 0 = [0x61, 0x06, 0x00, 0x36, 0x00, 0x00, 0x60, 0x64] ∧
      sendCommandData 6 0x0025 2 = [0x61, 0x06, 0x00, 0x25, 0x00, 0x02, 0x10, 0x60] := by
  refine ⟨?_, by decide, by decide, by decide⟩
  have hb : SCD30.begin w =
      setMeasurementInterval (beginMeasuring w 0) 2 := rfl
  rw [hb, setMeasurementInterval_eq, clearBuffer_sendCommand_written, beginMeasuring_eq,
    clearBuffer_sendCommand_written, List.append_assoc]

/-- C17: `setMeasurementInterval` enforces no range: for every 16-bit interval `i` it writes
exactly one frame of 8 bytes, the one `sendCommand` builds for function 6, register `0x0025`
and argument `i`, whose argument bytes are `i >> 8` and `i & 0xFF`. -/
theorem setMeasurementInterval_any_interval (w : World) (i : Nat) (hi : i < 65536) :
    (setMeasurementInterval w i).serial.written =
        w.serial.written ++ sendCommandData 6 0x0025 i ∧
      (setMeasurementInterval w i).serial.written =
        (sendCommand w 6 0x0025 i).serial.written ∧
      (sendCommandData 6 0x0025 i).length = 8 ∧
      (sendCommandData 6 0x0025 i).take 6 = [0x61, 6, 0x00, 0x25, i >>> 8, i &&& 0xFF] := by
  rw [setMeasurementInterval_eq, clearBuffer_sendCommand_written, sendCommand_eq]
  refine ⟨rfl, rfl, sendCommandData_length _ _ _, ?_⟩
  rw [sendCommandData_eq 6 0x0025 i (by decide) (by decide) hi]
  rfl

set_option maxRecDepth 100000 in
theorem setMeasurementInterval_any_interval_witness :
    (0 < 65536 ∧ 1 < 65536 ∧ 1801 < 65536 ∧ 65535 < 65536) ∧
    ((setMeasurementInterval (World.initial []) 0).serial.written =
        (World.initial []).serial.written ++ sendCommandData 6 0x0025 0 ∧
      (setMeasurementInterval (World.initial []) 1).serial.written =
        (World.initial []).serial.written ++ sendCommandData 6 0x0025 1 ∧
      (setMeasurementInterval (World.initial []) 1801).serial.written =
        (World.initial []).serial.written ++ sendCommandData 6 0x0025 1801 ∧
      (setMeasurementInterval (World.initial []) 65535).serial.written =
        (World.initial []).serial.written ++ sendCommandData 6 0x0025 65535) :=
  ⟨by decide,
    (setMeasurementInterval_any_interval (World.initial []) 0 (by decide)).1,
    (setMeasurementInterval_any_interval (World.initial []) 1 (by decide)).1,
    (setMeasurementInterval_any_interval (World.initial []) 1801 (by decide)).1,
    (setMeasurementInterval_any_interval (World.initial []) 65535 (by decide)).1⟩

/-- C18: for every session state, every content of the receive buffer and whatever the size
of a pointer, `getFirmwareVersion` writes no byte to the port: it transmits no request frame,
it only reads the receive buffer, which it leaves empty. -/
theorem getFirmwareVersion_writes_nothing (sizeofPointer : Nat) (w : World) :
    (getFirmwareVersion sizeofPointer w).2.serial.written = w.serial.written ∧
      (getFirmwareVersion sizeofPointer w).2.serial.buffer = [] := by
  unfold getFirmwareVersion
  by_cases h : sizeofPointer = 0
  · rw [if_pos h]
    exact ⟨rfl, rfl⟩
  · rw [if_neg h]
    cases hinc : w.serial.incoming <;>
      simp [clearBuffer, HardwareSerial.delay, HardwareSerial.drained, hinc]

/-! ## The residue of an emitted frame -/

/-- Feeding the low byte of the register to the reference leaves its high byte. -/
theorem crc16ModbusByte_low (c : Nat) (hc : c < 65536) :
    crc16ModbusByte c (c % 256) = c / 256 := by
  rw [crc16ModbusByte_eq c (c % 256) hc (Nat.mod_lt _ (by decide)), Nat.xor_self]
  have h0 : tableCRCLSB.getD 0 0 = 0 := rfl
  have h1 : tableCRCMSB.getD 0 0 = 0 := rfl
  rw [h0, h1, Nat.xor_zero]
  omega

/-- Feeding a register below 256 to itself leaves 0. -/
theorem crc16ModbusByte_high (h : Nat) (hh : h < 256) : crc16ModbusByte h h = 0 := by
  rw [crc16ModbusByte_eq h h (by omega) hh, Nat.mod_eq_of_lt hh, Nat.xor_self,
    Nat.div_eq_of_lt hh]
  rfl

/-- The reference CRC of a message followed by its own CRC, low byte first, is 0. -/
theorem crc16Modbus_append_crc (bytes : List Nat) (hbytes : ∀ b ∈ bytes, b < 256) :
    crc16Modbus (bytes ++ [crc16Modbus bytes % 256, crc16Modbus bytes / 256]) = 0 := by
  have hlt := crc16Modbus_lt bytes hbytes
  unfold crc16Modbus at hlt ⊢
  rw [List.foldl_append, List.foldl_cons, List.foldl_cons, List.foldl_nil,
    crc16ModbusByte_low _ hlt, crc16ModbusByte_high _ (by omega)]

theorem sendCommandData_mod_all (fc addr arg : Nat) :
    sendCommandData fc addr arg = sendCommandData (fc % 256) (addr % 65536) (arg % 65536) := by
  simp only [sendCommandData, Nat.mod_mod]

/-- C19: for every function code, register address and argument, `computeCRC16` run over all
8 bytes of the frame `sendCommand` writes (the 6 request bytes followed by the 2 checksum
bytes as placed in the frame) returns 0. -/
theorem computeCRC16_frame_residue (w : World) (fc addr arg : Nat) :
    (sendCommand w fc addr arg).serial.written =
        w.serial.written ++ sendCommandData fc addr arg ∧
      (sendCommandData fc addr arg).length = 8 ∧
      computeCRC16 (sendCommandData fc addr arg) 8 = 0 := by
  refine ⟨by rw [sendCommand_eq], sendCommandData_length _ _ _, ?_⟩
  have hfc : fc % 256 < 256 := Nat.mod_lt _ (by decide)
  have haddr : addr % 65536 < 65536 := Nat.mod_lt _ (by decide)
  have harg : arg % 65536 < 65536 := Nat.mod_lt _ (by decide)
  have hsix : ∀ b ∈ [0x61, fc % 256, (addr % 65536) >>> 8, (addr % 65536) &&& 0xFF,
      (arg % 65536) >>> 8, (arg % 65536) &&& 0xFF], b < 256 := by
    intro b hb
    simp only [and_255, shiftRight_8, List.mem_cons, List.mem_singleton, List.not_mem_nil,
      or_false] at hb
    omega
  have hcrc := crc16Modbus_lt _ hsix
  have hframe := sendCommandData_eq (fc % 256) (addr % 65536) (arg % 65536) hfc haddr harg
  have happ : sendCommandData (fc % 256) (addr % 65536) (arg % 65536) =
      [0x61, fc % 256, (addr % 65536) >>> 8, (addr % 65536) &&& 0xFF,
        (arg % 65536) >>> 8, (arg % 65536) &&& 0xFF] ++
      [crc16Modbus [0x61, fc % 256, (addr % 65536) >>> 8, (addr % 65536) &&& 0xFF,
          (arg % 65536) >>> 8, (arg % 65536) &&& 0xFF] % 256,
        crc16Modbus [0x61, fc % 256, (addr % 65536) >>> 8, (addr % 65536) &&& 0xFF,
          (arg % 65536) >>> 8, (arg % 65536) &&& 0xFF] / 256] := by
    rw [hframe]
    rfl
  have hall : ∀ b ∈ sendCommandData (fc % 256) (addr % 65536) (arg % 65536), b < 256 := by
    rw [happ]
    intro b hb
    rcases List.mem_append.1 hb with h | h
    · exact hsix b h
    · simp only [List.mem_cons, List.mem_singleton, List.not_mem_nil, or_false] at h
      omega
  have hlen := sendCommandData_length (fc % 256) (addr % 65536) (arg % 65536)
  rw [sendCommandData_mod_all,
    computeCRC16_eq_swap _ 8 hall (by omega) (by decide),
    List.take_of_length_le (by omega), happ, crc16Modbus_append_crc _ hsix]

set_option maxRecDepth 100000 in
/-- The read-measurement request as it goes out. -/
theorem sendCommandData_read_measurement :
    sendCommandData SCD30_READ_HOLDING_REGISTERS SCD30_READ_MEASUREMENT 6 =
      [0x61, 0x03, 0x00, 0x28, 0x00, 0x06, 0x4C, 0x60] := by
  decide
